import Mathlib

/-!
# cx-chains: cipher test-vector suite and the genesis binding gate

Shallow embedding of

* `src/cipher/testsuite/testsuite.go` (exchange format of the golden fixtures,
  `ValidateSeedData`),
* `cmd/cxchain-cli/cmd_run.go` (`readRunENVs`, `processRunFlags`, `cmdRun`),
* `cmd/cxchain-cli/cmd_key.go` (`processKeyFlags`, `cmdKey`),
* `src/cx/cxspec/chainspec.go` (`CoinHoursName`, `CoinHoursTicker`,
  `stripWhitespaces`).

The cipher library (`skycoin/src/cipher`, `secp256k1-go`) is an external
dependency of the repository: its types and functions are taken as the fields
of a record `Cipher`, and every theorem quantifies over all such records.
Go slices keep their nil/non-nil distinction (`Slice`), panics of the `Must*`
functions and of out-of-range indexing are explicit results (`Fault`).
-/

namespace CxChains

/-! ## Go values -/

/-- Go slice: either `nil` or a (possibly empty) sequence of elements. -/
inductive Slice (α : Type) where
  | nil : Slice α
  | mk (elems : List α) : Slice α
  deriving DecidableEq, Repr

/-- Elements of a slice in order; the nil slice has none. -/
def Slice.toList {α : Type} : Slice α → List α
  | .nil => []
  | .mk elems => elems

/-- Go `len(s)`. -/
def Slice.len {α : Type} (s : Slice α) : Nat := s.toList.length

/-- Go `byte`. -/
abbrev Byte := Fin 256

/-- Go conversion `byte(v)` of a non-negative integer: the low eight bits. -/
def toByte (v : Nat) : Byte := ⟨v % 256, Nat.mod_lt v (by decide)⟩

/-! ## `encoding/base64`, `StdEncoding` (RFC 4648, padded) -/

/-- The alphabet `encodeStd` of Go's `encoding/base64`. -/
def encodeStd : List Char :=
  ['A', 'B', 'C', 'D', 'E', 'F', 'G', 'H', 'I', 'J', 'K', 'L', 'M',
   'N', 'O', 'P', 'Q', 'R', 'S', 'T', 'U', 'V', 'W', 'X', 'Y', 'Z',
   'a', 'b', 'c', 'd', 'e', 'f', 'g', 'h', 'i', 'j', 'k', 'l', 'm',
   'n', 'o', 'p', 'q', 'r', 's', 't', 'u', 'v', 'w', 'x', 'y', 'z',
   '0', '1', '2', '3', '4', '5', '6', '7', '8', '9', '+', '/']

/-- The padding character of `StdEncoding`. -/
def padChar : Char := '='

/-- Entry `enc.encode[v]` of the encoding table, for a six-bit value `v`. -/
def encodeChar (v : Nat) : Char := encodeStd.getD v 'A'

/-- Entry `enc.decodeMap[c]` of the decoding table: the six-bit value of an
alphabet character, `none` for every other character. -/
def decodeChar (c : Char) : Option Nat :=
  if encodeStd.indexOf c < 64 then some (encodeStd.indexOf c) else none

/-- Characters written by `Encoding.Encode`: four per three source bytes, the
last group padded with `=`. -/
def encodeChars : List Byte → List Char
  | [] => []
  | [b0] =>
    let val := b0.val * 65536
    [encodeChar (val / 262144 % 64), encodeChar (val / 4096 % 64), padChar, padChar]
  | [b0, b1] =>
    let val := b0.val * 65536 + b1.val * 256
    [encodeChar (val / 262144 % 64), encodeChar (val / 4096 % 64),
     encodeChar (val / 64 % 64), padChar]
  | b0 :: b1 :: b2 :: rest =>
    let val := b0.val * 65536 + b1.val * 256 + b2.val
    encodeChar (val / 262144 % 64) :: encodeChar (val / 4096 % 64) ::
      encodeChar (val / 64 % 64) :: encodeChar (val % 64) :: encodeChars rest

/-- Go `base64.StdEncoding.EncodeToString`. -/
def EncodeToString (src : List Byte) : String := String.mk (encodeChars src)

/-- Quanta read by `Encoding.decode` (non-strict mode) once carriage returns
and newlines are dropped: four alphabet characters give three bytes; a final
quantum may end in `==` (one byte) or `=` (two bytes); anything else is
corrupt input. -/
def decodeChars : List Char → Option (List Byte)
  | [] => some []
  | c0 :: c1 :: c2 :: c3 :: rest =>
    match decodeChar c0, decodeChar c1 with
    | some v0, some v1 =>
      if c2 = padChar then
        if c3 = padChar ∧ rest = [] then
          some [toByte ((v0 * 262144 + v1 * 4096) / 65536)]
        else none
      else
        match decodeChar c2 with
        | none => none
        | some v2 =>
          if c3 = padChar then
            if rest = [] then
              let val := v0 * 262144 + v1 * 4096 + v2 * 64
              some [toByte (val / 65536), toByte (val / 256)]
            else none
          else
            match decodeChar c3 with
            | none => none
            | some v3 =>
              let val := v0 * 262144 + v1 * 4096 + v2 * 64 + v3
              match decodeChars rest with
              | none => none
              | some bytes => some (toByte (val / 65536) :: toByte (val / 256) :: toByte val :: bytes)
    | _, _ => none
  | _ => none

/-- Go `base64.StdEncoding.DecodeString`: the decoded bytes, or `none` for a
`CorruptInputError` (whose byte offset is not modelled). Carriage returns and
newlines are ignored by the decoder. -/
def DecodeString (s : String) : Option (List Byte) :=
  decodeChars (s.toList.filter (fun c => c ≠ '\n' ∧ c ≠ '\r'))

/-! ## The cipher library -/

/-- The part of `skycoin/src/cipher` and `secp256k1-go` used by the test
suite. The types are Go arrays and structs of bytes, compared with `==`; the
`null*` fields are their zero values (`cipher.SecKey{}` and so on). A `Must*`
function returns `none` where the library panics. -/
structure Cipher where
  SecKey : Type
  PubKey : Type
  Address : Type
  BitcoinAddress : Type
  Sig : Type
  SHA256 : Type
  Error : Type
  [decEqSecKey : DecidableEq SecKey]
  [decEqPubKey : DecidableEq PubKey]
  [decEqAddress : DecidableEq Address]
  [decEqBitcoinAddress : DecidableEq BitcoinAddress]
  [decEqSig : DecidableEq Sig]
  [decEqSHA256 : DecidableEq SHA256]
  nullSecKey : SecKey
  nullPubKey : PubKey
  nullAddress : Address
  nullBitcoinAddress : BitcoinAddress
  nullSig : Sig
  /-- Text of an error value, `err.Error()`, as printed by `%v`. -/
  errorText : Error → String
  SecKeyHex : SecKey → String
  SecKeyFromHex : String → Except Error SecKey
  PubKeyHex : PubKey → String
  PubKeyFromHex : String → Except Error PubKey
  SigHex : Sig → String
  SigFromHex : String → Except Error Sig
  SHA256Hex : SHA256 → String
  SHA256FromHex : String → Except Error SHA256
  AddressString : Address → String
  DecodeBase58Address : String → Except Error Address
  BitcoinAddressString : BitcoinAddress → String
  DecodeBase58BitcoinAddress : String → Except Error BitcoinAddress
  MustGenerateDeterministicKeyPairs : Slice Byte → Nat → Option (List SecKey)
  MustPubKeyFromSecKey : SecKey → Option PubKey
  AddressFromPubKey : PubKey → Address
  MustAddressFromSecKey : SecKey → Option Address
  BitcoinAddressFromPubKey : PubKey → BitcoinAddress
  MustBitcoinAddressFromSecKey : SecKey → Option BitcoinAddress
  VerifySeckey : SecKey → Int
  VerifyPubkey : PubKey → Int
  VerifyPubKeySignedHash : PubKey → Sig → SHA256 → Option Error
  VerifyAddressSignedHash : Address → Sig → SHA256 → Option Error
  VerifySignedHash : Sig → SHA256 → Option Error
  PubKeyFromSig : Sig → SHA256 → Except Error PubKey

attribute [instance] Cipher.decEqSecKey Cipher.decEqPubKey Cipher.decEqAddress
  Cipher.decEqBitcoinAddress Cipher.decEqSig Cipher.decEqSHA256

/-- The signing function `cipher.MustSignHash`. Signing draws a nonce, so two
calls on the same digest and key may differ: the first argument is the number
of calls made earlier in the run. `none` is a panic. -/
abbrev Signer (C : Cipher) := Nat → C.SHA256 → C.SecKey → Option C.Sig

/-- Go `error` values returned by the decoding functions. -/
inductive GoError (C : Cipher) where
  | cipher (e : C.Error)
  | corruptInput

/-! ## Exchange format (`testsuite.go`, lines 15-176) -/

/-- Go struct `InputTestDataJSON`. -/
structure InputTestDataJSON where
  Hashes : Slice String
  deriving DecidableEq, Repr

/-- Go struct `KeysTestDataJSON`. -/
structure KeysTestDataJSON where
  Address : String
  BitcoinAddress : String
  Secret : String
  Public : String
  Signatures : Slice String
  deriving DecidableEq, Repr

/-- Go struct `SeedTestDataJSON`. -/
structure SeedTestDataJSON where
  Seed : String
  Keys : Slice KeysTestDataJSON
  deriving DecidableEq, Repr

/-- Go struct `InputTestData`. -/
structure InputTestData (C : Cipher) where
  Hashes : Slice C.SHA256

/-- Go struct `KeysTestData`. -/
structure KeysTestData (C : Cipher) where
  Address : C.Address
  BitcoinAddress : C.BitcoinAddress
  Secret : C.SecKey
  Public : C.PubKey
  Signatures : Slice C.Sig

/-- Go struct `SeedTestData`. -/
structure SeedTestData (C : Cipher) where
  Seed : Slice Byte
  Keys : Slice (KeysTestData C)

/-- Method `(*InputTestData).ToJSON`: a fresh slice of the hex digests. -/
def InputTestData.ToJSON {C : Cipher} (d : InputTestData C) : InputTestDataJSON :=
  { Hashes := .mk (d.Hashes.toList.map C.SHA256Hex) }

/-- The loop of `InputTestDataFromJSON`: decode each string, stop at the first
error. -/
def decodeHashes (C : Cipher) : List String → Except (GoError C) (List C.SHA256)
  | [] => .ok []
  | h :: rest =>
    match C.SHA256FromHex h with
    | .error err => .error (.cipher err)
    | .ok v =>
      match decodeHashes C rest with
      | .error err => .error err
      | .ok vs => .ok (v :: vs)

/-- Function `InputTestDataFromJSON`. -/
def InputTestDataFromJSON (C : Cipher) (d : InputTestDataJSON) :
    Except (GoError C) (InputTestData C) :=
  match decodeHashes C d.Hashes.toList with
  | .error err => .error err
  | .ok hashes => .ok { Hashes := .mk hashes }

/-- Method `(*KeysTestData).ToJSON`. -/
def KeysTestData.ToJSON {C : Cipher} (k : KeysTestData C) : KeysTestDataJSON :=
  { Address := C.AddressString k.Address
    BitcoinAddress := C.BitcoinAddressString k.BitcoinAddress
    Secret := C.SecKeyHex k.Secret
    Public := C.PubKeyHex k.Public
    Signatures := .mk (k.Signatures.toList.map C.SigHex) }

/-- The signature loop of `KeysTestDataFromJSON`. -/
def decodeSigs (C : Cipher) : List String → Except (GoError C) (List C.Sig)
  | [] => .ok []
  | s :: rest =>
    match C.SigFromHex s with
    | .error err => .error (.cipher err)
    | .ok v =>
      match decodeSigs C rest with
      | .error err => .error err
      | .ok vs => .ok (v :: vs)

/-- Function `KeysTestDataFromJSON`. A nil `Signatures` stays nil, any other
slice is decoded into a fresh slice. -/
def KeysTestDataFromJSON (C : Cipher) (d : KeysTestDataJSON) :
    Except (GoError C) (KeysTestData C) :=
  match C.DecodeBase58Address d.Address with
  | .error err => .error (.cipher err)
  | .ok addr =>
  match C.DecodeBase58BitcoinAddress d.BitcoinAddress with
  | .error err => .error (.cipher err)
  | .ok btcAddr =>
  match C.SecKeyFromHex d.Secret with
  | .error err => .error (.cipher err)
  | .ok s =>
  match C.PubKeyFromHex d.Public with
  | .error err => .error (.cipher err)
  | .ok p =>
  match d.Signatures with
  | .nil =>
    .ok { Address := addr, BitcoinAddress := btcAddr, Secret := s, Public := p,
          Signatures := .nil }
  | .mk strs =>
    match decodeSigs C strs with
    | .error err => .error err
    | .ok sigs =>
      .ok { Address := addr, BitcoinAddress := btcAddr, Secret := s, Public := p,
            Signatures := .mk sigs }

/-- Method `(*SeedTestData).ToJSON`. -/
def SeedTestData.ToJSON {C : Cipher} (s : SeedTestData C) : SeedTestDataJSON :=
  { Seed := EncodeToString s.Seed.toList
    Keys := .mk (s.Keys.toList.map KeysTestData.ToJSON) }

/-- The key loop of `SeedTestDataFromJSON`. -/
def decodeKeys (C : Cipher) : List KeysTestDataJSON → Except (GoError C) (List (KeysTestData C))
  | [] => .ok []
  | kj :: rest =>
    match KeysTestDataFromJSON C kj with
    | .error err => .error err
    | .ok k =>
      match decodeKeys C rest with
      | .error err => .error err
      | .ok ks => .ok (k :: ks)

/-- Function `SeedTestDataFromJSON`. -/
def SeedTestDataFromJSON (C : Cipher) (d : SeedTestDataJSON) :
    Except (GoError C) (SeedTestData C) :=
  match DecodeString d.Seed with
  | none => .error .corruptInput
  | some seed =>
    match decodeKeys C d.Keys.toList with
    | .error err => .error err
    | .ok keys => .ok { Seed := .mk seed, Keys := .mk keys }

/-! ## `ValidateSeedData` (`testsuite.go`, lines 178-289) -/

/-- How a run of `ValidateSeedData` ends when it does not return nil. -/
inductive Fault where
  /-- The function returned `errors.New(msg)` or `fmt.Errorf` with text `msg`. -/
  | error (msg : String)
  /-- A `Must*` function of the cipher library panicked. -/
  | cipherPanic
  /-- Runtime panic: index out of range. -/
  | indexOutOfRange
  deriving DecidableEq, Repr

/-- Body of the loop over the digests (lines 248-280) for the stored signature
`sig` and the digest `h`; `n` counts the earlier calls of the signer. -/
def validateSignature (C : Cipher) (sign : Signer C) (s : C.SecKey) (p : C.PubKey)
    (addr1 : C.Address) (sig : C.Sig) (h : C.SHA256) (n : Nat) : Except Fault Nat :=
  if sig = C.nullSig then .error (.error "provided signature is null") else
  match C.VerifyPubKeySignedHash p sig h with
  | some err =>
    .error (.error ("cipher.VerifyPubKeySignedHash failed: " ++ C.errorText err))
  | none =>
  match C.VerifyAddressSignedHash addr1 sig h with
  | some err =>
    .error (.error ("cipher.VerifyAddressSignedHash failed: " ++ C.errorText err))
  | none =>
  match C.VerifySignedHash sig h with
  | some err =>
    .error (.error ("cipher.VerifySignedHash failed: " ++ C.errorText err))
  | none =>
  match C.PubKeyFromSig sig h with
  | .error err =>
    .error (.error ("cipher.PubKeyFromSig failed: " ++ C.errorText err))
  | .ok p2 =>
  if p ≠ p2 then
    .error (.error
      "public key derived from signature does not match public key derived from secret")
  else
  match sign n h s with
  | none => .error .cipherPanic
  | some sig2 =>
  if sig2 = C.nullSig then .error (.error "created signature is null") else
  .ok (n + 1)

/-- The loop `for j, h := range inputData.Hashes` (lines 247-284) from index
`j` on, over the remaining digests; `sigs` is `seedData.Keys[i].Signatures`. -/
def validateSignatures (C : Cipher) (sign : Signer C) (s : C.SecKey) (p : C.PubKey)
    (addr1 : C.Address) (sigs : Slice C.Sig) : Nat → List C.SHA256 → Nat → Except Fault Nat
  | _, [], n => .ok n
  | j, h :: rest, n =>
    match sigs.toList.get? j with
    | none => .error .indexOutOfRange
    | some sig =>
      match validateSignature C sign s p addr1 sig h n with
      | .error e => .error e
      | .ok m => validateSignatures C sign s p addr1 sigs (j + 1) rest m

/-- The signature part of one loop iteration (lines 238-285), run once the
key-level checks have passed; `k` is `seedData.Keys[i]`. -/
def validateKeySignatures (C : Cipher) (sign : Signer C) (inputData : Option (InputTestData C))
    (k : KeysTestData C) (s : C.SecKey) (p : C.PubKey) (n : Nat) : Except Fault Nat :=
  if inputData.isNone ∧ k.Signatures.len ≠ 0 then
    .error (.error "seed data contains signatures but input data was not provided")
  else
  match inputData with
  | none => .ok n
  | some input =>
    if k.Signatures.len ≠ input.Hashes.len then
      .error (.error
        "Number of signatures in seed data does not match number of hashes in input data")
    else
      validateSignatures C sign s p (C.AddressFromPubKey p) k.Signatures 0 input.Hashes.toList n

/-- Body of the loop over the generated keys (lines 187-285) for index `i` and
generated secret `s`: the key-level checks (lines 187-236), then the signature
part. `seedData.Keys[i]` is read once, at its first use. -/
def validateKey (C : Cipher) (sign : Signer C) (seedData : SeedTestData C)
    (inputData : Option (InputTestData C)) (i : Nat) (s : C.SecKey) (n : Nat) :
    Except Fault Nat :=
  if s = C.nullSecKey then .error (.error "secret key is null") else
  match seedData.Keys.toList.get? i with
  | none => .error .indexOutOfRange
  | some k =>
  if k.Secret ≠ s then
    .error (.error "generated secret key does not match provided secret key")
  else
  match C.MustPubKeyFromSecKey s with
  | none => .error .cipherPanic
  | some p =>
  if p = C.nullPubKey then .error (.error "public key is null") else
  if k.Public ≠ p then
    .error (.error "derived public key does not match provided public key")
  else
  if C.AddressFromPubKey p = C.nullAddress then .error (.error "address is null") else
  if k.Address ≠ C.AddressFromPubKey p then
    .error (.error "derived address does not match provided address")
  else
  match C.MustAddressFromSecKey s with
  | none => .error .cipherPanic
  | some addr2 =>
  if C.AddressFromPubKey p ≠ addr2 then
    .error (.error
      "cipher.AddressFromPubKey and cipher.AddressFromSecKey generated different addresses")
  else
  if C.BitcoinAddressFromPubKey p = C.nullBitcoinAddress then
    .error (.error "bitcoin address is null")
  else
  if k.BitcoinAddress ≠ C.BitcoinAddressFromPubKey p then
    .error (.error "derived bitcoin address does not match provided bitcoin address")
  else
  match C.MustBitcoinAddressFromSecKey s with
  | none => .error .cipherPanic
  | some btcAddr2 =>
  if C.BitcoinAddressFromPubKey p ≠ btcAddr2 then
    .error (.error
      "cipher.BitcoinAddressFromPubKey and cipher.BitcoinAddressFromSecKey generated different addresses")
  else
  if C.VerifySeckey s ≠ 1 then .error (.error "secp256k1.VerifySeckey failed") else
  if C.VerifyPubkey p ≠ 1 then .error (.error "secp256k1.VerifyPubkey failed") else
  validateKeySignatures C sign inputData k s p n

/-- The loop `for i, s := range keys` (lines 186-286) from index `i` on. -/
def validateKeys (C : Cipher) (sign : Signer C) (seedData : SeedTestData C)
    (inputData : Option (InputTestData C)) : Nat → List C.SecKey → Nat → Except Fault Nat
  | _, [], n => .ok n
  | i, s :: rest, n =>
    match validateKey C sign seedData inputData i s n with
    | .error e => .error e
    | .ok m => validateKeys C sign seedData inputData (i + 1) rest m

/-- Function `ValidateSeedData`; `inputData` is `none` for a nil pointer and
`.ok ()` is the result `nil`. -/
def ValidateSeedData (C : Cipher) (sign : Signer C) (seedData : SeedTestData C)
    (inputData : Option (InputTestData C)) : Except Fault Unit :=
  match C.MustGenerateDeterministicKeyPairs seedData.Seed seedData.Keys.len with
  | none => .error .cipherPanic
  | some keys =>
    if seedData.Keys.len ≠ keys.length then
      .error (.error
        "cipher.GenerateDeterministicKeyPairs generated an unexpected number of keys")
    else
      match validateKeys C sign seedData inputData 0 keys 0 with
      | .error e => .error e
      | .ok _ => .ok ()

/-- The key-level checks of one loop iteration (lines 187-236) all pass for
the stored key `k`, the generated secret `s` and its public key `p`: no value
is null, the stored secret, public key and addresses are the derived ones, the
two derivation paths of each address agree, and `VerifySeckey` and
`VerifyPubkey` return 1. -/
def keyChecksPass (C : Cipher) (k : KeysTestData C) (s : C.SecKey) (p : C.PubKey) : Prop :=
  s ≠ C.nullSecKey ∧ k.Secret = s ∧
  C.MustPubKeyFromSecKey s = some p ∧ p ≠ C.nullPubKey ∧ k.Public = p ∧
  C.AddressFromPubKey p ≠ C.nullAddress ∧ k.Address = C.AddressFromPubKey p ∧
  C.MustAddressFromSecKey s = some (C.AddressFromPubKey p) ∧
  C.BitcoinAddressFromPubKey p ≠ C.nullBitcoinAddress ∧
  k.BitcoinAddress = C.BitcoinAddressFromPubKey p ∧
  C.MustBitcoinAddressFromSecKey s = some (C.BitcoinAddressFromPubKey p) ∧
  C.VerifySeckey s = 1 ∧ C.VerifyPubkey p = 1

/-- The fixture `d` with the stored public key of key `i` replaced by `q`;
the seed, the other fields of key `i` and all other keys are kept. Without a
key `i` the fixture is unchanged. -/
def setPublic {C : Cipher} (d : SeedTestData C) (i : Nat) (q : C.PubKey) : SeedTestData C :=
  match d.Keys.toList.get? i with
  | none => d
  | some k =>
    { Seed := d.Seed
      Keys := .mk (d.Keys.toList.set i
        { Address := k.Address, BitcoinAddress := k.BitcoinAddress, Secret := k.Secret,
          Public := q, Signatures := k.Signatures }) }

/-- The texts of the errors created with `errors.New` in `ValidateSeedData`,
in source order. -/
def checkMessages : List String :=
  ["cipher.GenerateDeterministicKeyPairs generated an unexpected number of keys",
   "secret key is null",
   "generated secret key does not match provided secret key",
   "public key is null",
   "derived public key does not match provided public key",
   "address is null",
   "derived address does not match provided address",
   "cipher.AddressFromPubKey and cipher.AddressFromSecKey generated different addresses",
   "bitcoin address is null",
   "derived bitcoin address does not match provided bitcoin address",
   "cipher.BitcoinAddressFromPubKey and cipher.BitcoinAddressFromSecKey generated different addresses",
   "secp256k1.VerifySeckey failed",
   "secp256k1.VerifyPubkey failed",
   "seed data contains signatures but input data was not provided",
   "Number of signatures in seed data does not match number of hashes in input data",
   "provided signature is null",
   "public key derived from signature does not match public key derived from secret",
   "created signature is null"]

/-- The texts of the errors created with `fmt.Errorf` in `ValidateSeedData`
around the library error `e`, in source order. -/
def wrappedMessages (C : Cipher) (e : C.Error) : List String :=
  ["cipher.VerifyPubKeySignedHash failed: " ++ C.errorText e,
   "cipher.VerifyAddressSignedHash failed: " ++ C.errorText e,
   "cipher.VerifySignedHash failed: " ++ C.errorText e,
   "cipher.PubKeyFromSig failed: " ++ C.errorText e]

/-- The text is that of one of the checks of `ValidateSeedData`. -/
def isCheckMessage (C : Cipher) (msg : String) : Prop :=
  msg ∈ checkMessages ∨ ∃ e, msg ∈ wrappedMessages C e

/-- Decoding of a list element by element with `f`, stopping at the first
error: the common shape of the loops `decodeHashes`, `decodeSigs` and
`decodeKeys`. -/
def decodeEach {α β ε : Type} (f : α → Except ε β) : List α → Except ε (List β)
  | [] => .ok []
  | x :: rest =>
    match f x with
    | .error err => .error err
    | .ok v =>
      match decodeEach f rest with
      | .error err => .error err
      | .ok vs => .ok (v :: vs)

/-- A result of the cipher library as a result of the decoding functions. -/
def liftCipher {C : Cipher} {β : Type} (r : Except C.Error β) : Except (GoError C) β :=
  match r with
  | .error err => .error (.cipher err)
  | .ok v => .ok v

/-- One entry of a list of checks: the error text when the check is violated. -/
def check (violated : Prop) [Decidable violated] (msg : String) : Option String :=
  if violated then some msg else none

/-- The error text of the first violated check of a list, if any. -/
def firstViolated : List (Option String) → Option String
  | [] => none
  | some msg :: _ => some msg
  | none :: rest => firstViolated rest

/-- The checks on one key as the specification orders them: null secret,
secret mismatch, null public key, public-key mismatch, null address, address
mismatch, address path divergence, the same three for the bitcoin address,
`VerifySeckey`, `VerifyPubkey`, unexpected signatures, signature count. A
check on a derived value is violated only when the derivation returned. -/
def keyCheckOrder (C : Cipher) (inputData : Option (InputTestData C)) (k : KeysTestData C)
    (s : C.SecKey) : List (Option String) :=
  let p := C.MustPubKeyFromSecKey s
  let addr1 := p.map C.AddressFromPubKey
  let addr2 := C.MustAddressFromSecKey s
  let btcAddr1 := p.map C.BitcoinAddressFromPubKey
  let btcAddr2 := C.MustBitcoinAddressFromSecKey s
  let validPub := p.map C.VerifyPubkey
  let digests := inputData.map (fun input => input.Hashes.len)
  [check (s = C.nullSecKey) "secret key is null",
   check (k.Secret ≠ s) "generated secret key does not match provided secret key",
   check (p = some C.nullPubKey) "public key is null",
   check (p.isSome ∧ some k.Public ≠ p) "derived public key does not match provided public key",
   check (addr1 = some C.nullAddress) "address is null",
   check (addr1.isSome ∧ some k.Address ≠ addr1)
     "derived address does not match provided address",
   check (addr1.isSome ∧ addr2.isSome ∧ addr1 ≠ addr2)
     "cipher.AddressFromPubKey and cipher.AddressFromSecKey generated different addresses",
   check (btcAddr1 = some C.nullBitcoinAddress) "bitcoin address is null",
   check (btcAddr1.isSome ∧ some k.BitcoinAddress ≠ btcAddr1)
     "derived bitcoin address does not match provided bitcoin address",
   check (btcAddr1.isSome ∧ btcAddr2.isSome ∧ btcAddr1 ≠ btcAddr2)
     "cipher.BitcoinAddressFromPubKey and cipher.BitcoinAddressFromSecKey generated different addresses",
   check (C.VerifySeckey s ≠ 1) "secp256k1.VerifySeckey failed",
   check (validPub.isSome ∧ validPub ≠ some 1) "secp256k1.VerifyPubkey failed",
   check (inputData.isNone ∧ k.Signatures.len ≠ 0)
     "seed data contains signatures but input data was not provided",
   check (digests.isSome ∧ some k.Signatures.len ≠ digests)
     "Number of signatures in seed data does not match number of hashes in input data"]

/-- The checks on one stored signature `sig` and digest `h` as the
specification orders them: non-null stored signature, verification against the
derived public key, against the derived address and of the signature itself,
recovery of the public key without error, the recovered key equal to the
derived one, and a non-null fresh signature (the `n`-th call of the signer).
Each entry carries the error text of its check. -/
def signatureCheckOrder (C : Cipher) (sign : Signer C) (s : C.SecKey) (p : C.PubKey)
    (addr1 : C.Address) (sig : C.Sig) (h : C.SHA256) (n : Nat) : List (Option String) :=
  [check (sig = C.nullSig) "provided signature is null",
   (C.VerifyPubKeySignedHash p sig h).map
     (fun err => "cipher.VerifyPubKeySignedHash failed: " ++ C.errorText err),
   (C.VerifyAddressSignedHash addr1 sig h).map
     (fun err => "cipher.VerifyAddressSignedHash failed: " ++ C.errorText err),
   (C.VerifySignedHash sig h).map
     (fun err => "cipher.VerifySignedHash failed: " ++ C.errorText err),
   (match C.PubKeyFromSig sig h with
    | .error err => some ("cipher.PubKeyFromSig failed: " ++ C.errorText err)
    | .ok p2 =>
      check (p ≠ p2)
        "public key derived from signature does not match public key derived from secret"),
   check (sign n h s = some C.nullSig) "created signature is null"]

/-- The per-digest checks of one key, digest after digest from index `j` on;
the `t`-th digest is checked against the stored signature at its index with
the signer call `n + t`. -/
def digestCheckOrder (C : Cipher) (sign : Signer C) (s : C.SecKey) (p : C.PubKey)
    (addr1 : C.Address) (sigs : Slice C.Sig) : Nat → List C.SHA256 → Nat → List (Option String)
  | _, [], _ => []
  | j, h :: rest, n =>
    (match sigs.toList.get? j with
     | none => []
     | some sig => signatureCheckOrder C sign s p addr1 sig h n) ++
      digestCheckOrder C sign s p addr1 sigs (j + 1) rest (n + 1)

/-- All checks on one key as the specification orders them: the key-level
checks of `keyCheckOrder`, then the checks of every digest in order. -/
def checkOrder (C : Cipher) (sign : Signer C) (inputData : Option (InputTestData C))
    (k : KeysTestData C) (s : C.SecKey) (n : Nat) : List (Option String) :=
  keyCheckOrder C inputData k s ++
    (match inputData, C.MustPubKeyFromSecKey s with
     | some input, some p =>
       digestCheckOrder C sign s p (C.AddressFromPubKey p) k.Signatures 0 input.Hashes.toList n
     | _, _ => [])

/-! ## `cxchain-cli run` (`cmd_run.go`) -/

/-- How `FlagSet.Parse` fails. The flag sets of the commands are built with
`flag.ExitOnError`, so a failing `Parse` does not return an error: it ends the
process itself, with status 2 for arguments it cannot parse and status 0 after
`-h` or `-help`. -/
inductive ParseFailure where
  | invalid
  | help
  deriving DecidableEq, Repr

/-- Collaborators of the `run` subcommand: the cipher library
(`github.com/skycoin/skycoin/src/cipher`), the process environment as read by
`parseSKEnv`, the chain spec, flag parsing, the CX program tooling and the
node client. None of them is defined in `cmd_run.go`. -/
structure RunWorld where
  SecKey : Type
  Address : Type
  Error : Type
  ChainSpec : Type
  CXResult : Type
  SourceNames : Type
  Client : Type
  UxOut : Type
  Prog : Type
  [decEqAddress : DecidableEq Address]
  /-- Zero value `cipher.SecKey` of `var genSK cipher.SecKey`. -/
  nullSecKey : SecKey
  /-- The constant `genSKEnv`, name of the environment variable. -/
  genSKEnv : String
  /-- Function `parseSKEnv` on the environment of the process. -/
  parseSKEnv : String → Except Error SecKey
  AddressFromSecKey : SecKey → Except Error Address
  processSpecFlags : List String → ChainSpec
  ObtainWebInterfacePort : ChainSpec → Except Error Nat
  ObtainGenesisAddr : ChainSpec → Except Error Address
  /-- Outcome of `f.cmd.Parse(args)` on the registered flag variables, given
  their default values: `(debugLexer, debugProfile, inject, nodeAddr)`. -/
  Parse : Bool × Int × Bool × String → List String →
    Except ParseFailure (Bool × Int × Bool × String)
  ExtractCXArgs : List String → Except Error CXResult
  ListSourceNames : CXResult → SourceNames
  NewClient : String → Client
  PrepareChainProg : SourceNames → CXResult → Client → Address → Bool → Int →
    Except Error (UxOut × Prog)
  BroadcastMainExp : Client → SecKey → UxOut → Option Error
  RunChainProg : CXResult → Prog → Option Error

attribute [instance] RunWorld.decEqAddress

/-- Termination of the process from inside the command. -/
inductive Exit where
  /-- Call of `log.Fatal` with this message. -/
  | fatal (msg : String)
  /-- Call of `os.Exit` with this code. -/
  | osExit (code : Int)
  deriving DecidableEq, Repr

/-- The exit of the process inside a failing `FlagSet.Parse` under
`flag.ExitOnError`. -/
def ParseFailure.exit : ParseFailure → Exit
  | .invalid => .osExit 2
  | .help => .osExit 0

/-- Go struct `runFlags` (the flag set and the memory flags, which the command
only registers and logs, are left out). -/
structure runFlags where
  debugLexer : Bool
  debugProfile : Int
  inject : Bool
  nodeAddr : String
  deriving DecidableEq, Repr

/-- Function `readRunENVs` (lines 45-66). -/
def readRunENVs (W : RunWorld) (specAddr : W.Address) : Except Exit W.SecKey :=
  match W.parseSKEnv W.genSKEnv with
  | .error _ => .error (.fatal "Failed to read secret key from ENV.")
  | .ok genSK =>
    match W.AddressFromSecKey genSK with
    | .error _ => .error (.fatal "Failed to extract genesis address.")
    | .ok genAddr =>
      if genAddr ≠ specAddr then
        .error (.fatal
          "Provided genesis secret key does not match genesis address from chain spec.")
      else
        .ok genSK

/-- Function `processRunFlags` (lines 68-131). The flag set is built with
`flag.ExitOnError` (line 69), so a failing `Parse` ends the process itself and
the `os.Exit(1)` of line 117 is never reached. -/
def processRunFlags (W : RunWorld) (args : List String) :
    Except Exit (runFlags × W.ChainSpec × W.SecKey) :=
  let spec := W.processSpecFlags args
  match W.ObtainWebInterfacePort spec with
  | .error _ => .error (.fatal "Failed to obtain web interface port.")
  | .ok webPort =>
    match W.ObtainGenesisAddr spec with
    | .error _ => .error (.fatal "Failed to obtain genesis address.")
    | .ok genesisAddr =>
      match W.Parse (false, 0, false, "http://127.0.0.1:" ++ toString webPort) args with
      | .error failure => .error failure.exit
      | .ok (debugLexer, debugProfile, inject, nodeAddr) =>
        let f : runFlags :=
          { debugLexer := debugLexer, debugProfile := debugProfile, inject := inject,
            nodeAddr := nodeAddr }
        if f.inject then
          match readRunENVs W genesisAddr with
          | .error e => .error e
          | .ok genSK => .ok (f, spec, genSK)
        else
          .ok (f, spec, W.nullSecKey)

/-- How a run of `cmdRun` ends: the process exits early, or the command makes
its last call, `BroadcastMainExp` or `RunChainProg`, with the arguments and the
result recorded here (a non-nil result is followed by `log.Fatal`). -/
inductive RunEnd (W : RunWorld) where
  | exit (e : Exit)
  | broadcastMainExp (c : W.Client) (genSK : W.SecKey) (ux : W.UxOut) (err : Option W.Error)
  | runChainProg (cxRes : W.CXResult) (progB : W.Prog) (err : Option W.Error)

/-- Function `cmdRun` (lines 133-175). -/
def cmdRun (W : RunWorld) (args : List String) : RunEnd W :=
  match processRunFlags W args with
  | .error e => .exit e
  | .ok (flags, spec, genSK) =>
    match W.ExtractCXArgs args with
    | .error _ => .exit (.fatal "Failed to extract CX args.")
    | .ok cxRes =>
      let cxFilenames := W.ListSourceNames cxRes
      let c := W.NewClient flags.nodeAddr
      match W.ObtainGenesisAddr spec with
      | .error _ => .exit (.fatal "Failed to obtain genesis address.")
      | .ok genesisAddr =>
        match W.PrepareChainProg cxFilenames cxRes c genesisAddr flags.debugLexer
            flags.debugProfile with
        | .error _ => .exit (.fatal "Failed to prepare chain CX program.")
        | .ok (ux, progB) =>
          if flags.inject then
            .broadcastMainExp c genSK ux (W.BroadcastMainExp c genSK ux)
          else
            .runChainProg cxRes progB (W.RunChainProg cxRes progB)

/-! ## `cxchain-cli key` (`cmd_key.go`) -/

/-- Modelled from the spec: the struct `cxspec.KeySpec`, whose declaration is
not among the sources. Section 6 of the spec gives its fields `spec_era`,
`key_type`, `pubkey`, `seckey` and `address`, each a string; `cmdKey` reads
them as `SpecEra`, `KeyType`, `PubKey`, `SecKey` and `Address`. -/
structure KeySpec where
  SpecEra : String
  KeyType : String
  PubKey : String
  SecKey : String
  Address : String
  deriving DecidableEq, Repr

/-- Go struct `keyFlags` without the flag set; `in_` is the field `in`. -/
structure keyFlags where
  in_ : String
  field : String
  deriving DecidableEq, Repr

/-- Collaborators of the `key` subcommand: flag parsing, the file system and
the JSON decoder. -/
structure KeyWorld where
  Error : Type
  File : Type
  /-- Outcome of `f.cmd.Parse(args)` on the flag variables `(in, field)`, given
  their default values. -/
  Parse : String × String → List String → Except ParseFailure (String × String)
  /-- Function `os.Open`. -/
  Open : String → Except Error File
  /-- Decoding of the file content into a `KeySpec` by `json.NewDecoder`. -/
  Decode : File → Except Error KeySpec
  /-- Method `Close` of the file. -/
  Close : File → Option Error

/-- Function `processKeyFlags` (lines 20-41). The flag set is built with
`flag.ExitOnError` (line 23), so a failing `Parse` ends the process itself and
the `os.Exit(1)` of line 37 is never reached. -/
def processKeyFlags (W : KeyWorld) (args : List String) : Except Exit keyFlags :=
  match W.Parse ("skycoin.chain_keys.json", "seckey") args with
  | .error failure => .error failure.exit
  | .ok (inName, field) => .ok { in_ := inName, field := field }

/-- The `switch flags.field` of `cmdKey` (lines 66-80): the selected value, or
`none` for the default case. -/
def selectField (kSpec : KeySpec) (field : String) : Option String :=
  if field = "spec_era" then some kSpec.SpecEra
  else if field = "key_type" then some kSpec.KeyType
  else if field = "pubkey" then some kSpec.PubKey
  else if field = "seckey" then some kSpec.SecKey
  else if field = "address" then some kSpec.Address
  else none

/-- What a run of `cmdKey` leaves behind: the lines written by `fmt.Println`
and how the process ended (`none` for a normal return). -/
structure KeyRun where
  stdout : List String
  exit : Option Exit
  deriving DecidableEq, Repr

/-- Function `cmdKey` (lines 43-83). `log.Fatal` ends the process at once, so
neither `fmt.Println` nor the deferred `f.Close()` runs after it; on the
normal path the deferred `f.Close()` runs after the line was printed. -/
def cmdKey (W : KeyWorld) (args : List String) : KeyRun :=
  match processKeyFlags W args with
  | .error e => { stdout := [], exit := some e }
  | .ok flags =>
    match W.Open flags.in_ with
    | .error _ => { stdout := [], exit := some (.fatal "Failed to read in file.") }
    | .ok f =>
      match W.Decode f with
      | .error _ => { stdout := [], exit := some (.fatal "Failed to decode file.") }
      | .ok kSpec =>
        match selectField kSpec flags.field with
        | none => { stdout := [], exit := some (.fatal "Invalid field input.") }
        | some out =>
          match W.Close f with
          | some _ => { stdout := [out], exit := some (.fatal "Failed to close file.") }
          | none => { stdout := [out], exit := none }

/-! ## Coin hours naming (`chainspec.go`) -/

/-- The functions of Go's `unicode` package used by `chainspec.go`, on runes.
A Go string is modelled by the sequence of runes that `range` yields. -/
structure Unicode where
  IsSpace : Char → Bool
  ToLower : Char → Char
  ToUpper : Char → Char

/-- The loop of `stripWhitespaces` (lines 37-42) over the remaining runes;
`out` is the slice built so far. -/
def stripLoop (U : Unicode) : List Char → List Char → List Char
  | out, [] => out
  | out, c :: rest =>
    if U.IsSpace c then stripLoop U out rest else stripLoop U (out ++ [c]) rest

/-- Function `stripWhitespaces` (lines 35-45). -/
def stripWhitespaces (U : Unicode) (s : String) : String :=
  String.mk (stripLoop U [] s.toList)

/-- Go `strings.ToLower`: every rune mapped by `unicode.ToLower`. -/
def strings.ToLower (U : Unicode) (s : String) : String :=
  String.mk (s.toList.map U.ToLower)

/-- Go `strings.ToUpper`: every rune mapped by `unicode.ToUpper`. -/
def strings.ToUpper (U : Unicode) (s : String) : String :=
  String.mk (s.toList.map U.ToUpper)

/-- Function `CoinHoursName` (lines 24-26). -/
def CoinHoursName (U : Unicode) (coinName : String) : String :=
  strings.ToLower U (stripWhitespaces U coinName) ++ " coin hours"

/-- Function `CoinHoursTicker` (lines 29-31). -/
def CoinHoursTicker (U : Unicode) (coinTicker : String) : String :=
  strings.ToUpper U (stripWhitespaces U coinTicker) ++ "_CH"

/-! ## A small cipher for evaluating the definitions -/

/-- Text codec of the example cipher: `n` is written as `n` letters. -/
def unary (n : Nat) : String := String.mk (List.replicate n 'x')

/-- An example cipher over the natural numbers with zero as the null value:
the generator returns the first `n` of the given secrets, the public key of
`s` is `s + 1`, the addresses of the public key `p` are `p + 1` and `p + 2`,
and the signature of the digest `h` under `s` is `s + 1 + h`. -/
def exampleCipher (secrets : List Nat) : Cipher where
  SecKey := Nat
  PubKey := Nat
  Address := Nat
  BitcoinAddress := Nat
  Sig := Nat
  SHA256 := Nat
  Error := String
  nullSecKey := 0
  nullPubKey := 0
  nullAddress := 0
  nullBitcoinAddress := 0
  nullSig := 0
  errorText := fun e => e
  SecKeyHex := unary
  SecKeyFromHex := fun t => .ok t.length
  PubKeyHex := unary
  PubKeyFromHex := fun t => .ok t.length
  SigHex := unary
  SigFromHex := fun t => .ok t.length
  SHA256Hex := unary
  SHA256FromHex := fun t => .ok t.length
  AddressString := unary
  DecodeBase58Address := fun t => .ok t.length
  BitcoinAddressString := unary
  DecodeBase58BitcoinAddress := fun t => .ok t.length
  MustGenerateDeterministicKeyPairs := fun _ n => some (secrets.take n)
  MustPubKeyFromSecKey := fun s => some (s + 1)
  AddressFromPubKey := fun p => p + 1
  MustAddressFromSecKey := fun s => some (s + 2)
  BitcoinAddressFromPubKey := fun p => p + 2
  MustBitcoinAddressFromSecKey := fun s => some (s + 3)
  VerifySeckey := fun s => if s = 0 then 0 else 1
  VerifyPubkey := fun p => if p = 0 then 0 else 1
  VerifyPubKeySignedHash := fun p sig h => if sig = p + h then none else some "invalid signature"
  VerifyAddressSignedHash := fun a sig h =>
    if sig + 1 = a + h then none else some "address does not match"
  VerifySignedHash := fun sig h => if h < sig then none else some "malformed signature"
  PubKeyFromSig := fun sig h => if h < sig then .ok (sig - h) else .error "recovery failed"

/-- Signer of the example cipher. -/
def exampleSigner (secrets : List Nat) : Signer (exampleCipher secrets) :=
  fun (_ : Nat) (h s : Nat) => (some (s + 1 + h) : Option Nat)

/-- The fixture entry of the example cipher for the secret `s`. -/
def exampleKey (secrets : List Nat) (s : Nat) (sigs : Slice Nat) :
    KeysTestData (exampleCipher secrets) :=
  { Address := (s + 2 : Nat), BitcoinAddress := (s + 3 : Nat), Secret := s,
    Public := (s + 1 : Nat), Signatures := sigs }

/-- Decoder of the strict example cipher: the unary text of a number, the null
value rejected. -/
def strictFromUnary (t : String) : Except String Nat :=
  if t.length = 0 then .error "null value" else .ok t.length

/-- The example cipher with decoders that reject the null value of every
type, as a library that validates keys, addresses and signatures does. -/
def exampleStrictCipher : Cipher where
  SecKey := Nat
  PubKey := Nat
  Address := Nat
  BitcoinAddress := Nat
  Sig := Nat
  SHA256 := Nat
  Error := String
  nullSecKey := 0
  nullPubKey := 0
  nullAddress := 0
  nullBitcoinAddress := 0
  nullSig := 0
  errorText := fun e => e
  SecKeyHex := unary
  SecKeyFromHex := strictFromUnary
  PubKeyHex := unary
  PubKeyFromHex := strictFromUnary
  SigHex := unary
  SigFromHex := strictFromUnary
  SHA256Hex := unary
  SHA256FromHex := strictFromUnary
  AddressString := unary
  DecodeBase58Address := strictFromUnary
  BitcoinAddressString := unary
  DecodeBase58BitcoinAddress := strictFromUnary
  MustGenerateDeterministicKeyPairs := (exampleCipher [5, 6]).MustGenerateDeterministicKeyPairs
  MustPubKeyFromSecKey := (exampleCipher [5, 6]).MustPubKeyFromSecKey
  AddressFromPubKey := (exampleCipher [5, 6]).AddressFromPubKey
  MustAddressFromSecKey := (exampleCipher [5, 6]).MustAddressFromSecKey
  BitcoinAddressFromPubKey := (exampleCipher [5, 6]).BitcoinAddressFromPubKey
  MustBitcoinAddressFromSecKey := (exampleCipher [5, 6]).MustBitcoinAddressFromSecKey
  VerifySeckey := (exampleCipher [5, 6]).VerifySeckey
  VerifyPubkey := (exampleCipher [5, 6]).VerifyPubkey
  VerifyPubKeySignedHash := (exampleCipher [5, 6]).VerifyPubKeySignedHash
  VerifyAddressSignedHash := (exampleCipher [5, 6]).VerifyAddressSignedHash
  VerifySignedHash := (exampleCipher [5, 6]).VerifySignedHash
  PubKeyFromSig := (exampleCipher [5, 6]).PubKeyFromSig

/-- Example fixture over `exampleStrictCipher`: a four-byte seed and two
keys, the first with one signature, the second with a nil signature slice. -/
def exampleStrictRoundTripData : SeedTestData exampleStrictCipher :=
  { Seed := .mk [1, 2, 3, 4]
    Keys := .mk
      [{ Address := (7 : Nat), BitcoinAddress := (8 : Nat), Secret := (5 : Nat),
         Public := (6 : Nat), Signatures := .mk [(16 : Nat)] },
       { Address := (8 : Nat), BitcoinAddress := (9 : Nat), Secret := (6 : Nat),
         Public := (7 : Nat), Signatures := .nil }] }

/-- Example input vector: the digests `10` and `20`. -/
def exampleInput : InputTestData (exampleCipher [5, 6]) :=
  { Hashes := .mk ([10, 20] : List Nat) }

/-- Example fixture over `exampleCipher [5, 6]` whose two keys each carry the
signatures of the digests of `exampleInput`. -/
def exampleSignedData : SeedTestData (exampleCipher [5, 6]) :=
  { Seed := .mk [1, 2, 3, 4]
    Keys := .mk [exampleKey [5, 6] 5 (.mk [16, 26]), exampleKey [5, 6] 6 (.mk [17, 27])] }

/-- Example fixture over `exampleCipher [5, 6]` without signatures. -/
def exampleUnsignedData : SeedTestData (exampleCipher [5, 6]) :=
  { Seed := .mk [1, 2, 3, 4]
    Keys := .mk [exampleKey [5, 6] 5 .nil, exampleKey [5, 6] 6 (.mk [])] }

/-- Example fixture over `exampleCipher [5, 6]` whose second key stores one
signature. -/
def exampleStraySignatureData : SeedTestData (exampleCipher [5, 6]) :=
  { Seed := .mk [1, 2, 3, 4]
    Keys := .mk [exampleKey [5, 6] 5 .nil, exampleKey [5, 6] 6 (.mk [17])] }

/-- Example fixture over `exampleCipher [0]`: the generator yields the null
secret, and the stored secret of the only key is null as well. -/
def exampleNullSecretData : SeedTestData (exampleCipher [0]) :=
  { Seed := .mk [0, 0, 0, 0]
    Keys := .mk [exampleKey [0] 0 .nil] }

/-- Example input vector with the single digest `10`. -/
def exampleOneDigest (secrets : List Nat) : InputTestData (exampleCipher secrets) :=
  { Hashes := .mk ([10] : List Nat) }

/-- Example fixture over `exampleCipher [5]`: one key, no signature. -/
def exampleOneKeyData : SeedTestData (exampleCipher [5]) :=
  { Seed := .mk [1, 2, 3, 4]
    Keys := .mk [exampleKey [5] 5 (.mk [])] }

/-- Example fixture over `exampleCipher [5, 6]`: the first key stores one
signature, which is null, the second key stores none. -/
def exampleNullSignatureData : SeedTestData (exampleCipher [5, 6]) :=
  { Seed := .mk [1, 2, 3, 4]
    Keys := .mk [exampleKey [5, 6] 5 (.mk [0]), exampleKey [5, 6] 6 (.mk [])] }

/-- Example fixture over `exampleCipher [5, 6]` whose key 0 stores a wrong
public key. -/
def exampleBadPublic0 : SeedTestData (exampleCipher [5, 6]) :=
  setPublic exampleUnsignedData 0 (99 : Nat)

/-- Example fixture over `exampleCipher [5, 6]` whose key 1 stores a wrong
public key. -/
def exampleBadPublic1 : SeedTestData (exampleCipher [5, 6]) :=
  setPublic exampleUnsignedData 1 (99 : Nat)

/-- An example world for the `run` subcommand: the environment holds the
secret `envSK`, the address of a secret `s` is `s + 2`, the chain spec is its
genesis address, and the `inject` flag is set when any argument is given. -/
def exampleWorld (envSK : Nat) (genesis : Nat) : RunWorld where
  SecKey := Nat
  Address := Nat
  Error := String
  ChainSpec := Nat
  CXResult := Unit
  SourceNames := Unit
  Client := Unit
  UxOut := Unit
  Prog := Unit
  nullSecKey := 0
  genSKEnv := "CXCHAIN_GENESIS_SK"
  parseSKEnv := fun _ => .ok envSK
  AddressFromSecKey := fun s => .ok (s + 2)
  processSpecFlags := fun _ => genesis
  ObtainWebInterfacePort := fun _ => .ok 6420
  ObtainGenesisAddr := fun spec => .ok spec
  Parse := fun f args => .ok (f.1, f.2.1, !args.isEmpty, f.2.2.2)
  ExtractCXArgs := fun _ => .ok ()
  ListSourceNames := fun _ => ()
  NewClient := fun _ => ()
  PrepareChainProg := fun _ _ _ _ _ _ => .ok ((), ())
  BroadcastMainExp := fun _ _ _ => none
  RunChainProg := fun _ _ => none

/-- An example world for the `key` subcommand: the file named `keys.json`
holds a key spec, the only argument (when given) is the requested field. -/
def exampleKeyWorld : KeyWorld where
  Error := String
  File := KeySpec
  Parse := fun f args =>
    match args with
    | [] => .ok f
    | a :: _ => .ok (f.1, a)
  Open := fun _ =>
    .ok { SpecEra := "cx1", KeyType := "chain", PubKey := "03ab", SecKey := "5f", Address := "2Xyz" }
  Decode := fun f => .ok f
  Close := fun _ => none

/-- Example rune functions: the ASCII blanks are the whitespace, and the case
mappings act on the letters `a`, `b`, `A` and `B` only. -/
def exampleUnicode : Unicode where
  IsSpace := fun c => c = ' ' || c = '\t' || c = '\n'
  ToLower := fun c => if c = 'A' then 'a' else if c = 'B' then 'b' else c
  ToUpper := fun c => if c = 'a' then 'A' else if c = 'b' then 'B' else c

/-! ## Base64 round trip -/

theorem Slice.toList_mk {α : Type} (l : List α) : (Slice.mk l).toList = l := rfl

theorem decodeChar_encodeChar_fin :
    ∀ v : Fin 64, decodeChar (encodeChar v.val) = some v.val := by
  decide

theorem encodeChar_plain_fin :
    ∀ v : Fin 64, encodeChar v.val ≠ padChar ∧ encodeChar v.val ≠ '\n' ∧
      encodeChar v.val ≠ '\r' := by
  decide

theorem decodeChar_encodeChar (v : Nat) : decodeChar (encodeChar (v % 64)) = some (v % 64) :=
  decodeChar_encodeChar_fin ⟨v % 64, Nat.mod_lt v (by decide)⟩

theorem encodeChar_ne_pad (v : Nat) : encodeChar (v % 64) ≠ padChar :=
  (encodeChar_plain_fin ⟨v % 64, Nat.mod_lt v (by decide)⟩).1

theorem decodeChars_encodeChars (src : List Byte) :
    decodeChars (encodeChars src) = some src := by
  induction src using encodeChars.induct with
  | case1 => rfl
  | case2 b0 =>
    simp only [encodeChars, decodeChars, decodeChar_encodeChar, encodeChar_ne_pad]
    simp [toByte]
    apply Fin.ext
    simp
    omega
  | case3 b0 b1 =>
    simp only [encodeChars, decodeChars, decodeChar_encodeChar, encodeChar_ne_pad]
    simp [toByte]
    constructor <;> apply Fin.ext <;> simp <;> omega
  | case4 b0 b1 b2 rest ih =>
    simp only [encodeChars, decodeChars, decodeChar_encodeChar, encodeChar_ne_pad]
    simp [toByte, ih]
    refine ⟨?_, ?_, ?_⟩ <;> apply Fin.ext <;> simp <;> omega

theorem encodeChars_plain (src : List Byte) :
    ∀ c ∈ encodeChars src, c ≠ '\n' ∧ c ≠ '\r' := by
  have hp : ∀ v : Nat, encodeChar (v % 64) ≠ '\n' ∧ encodeChar (v % 64) ≠ '\r' :=
    fun v => (encodeChar_plain_fin ⟨v % 64, Nat.mod_lt v (by decide)⟩).2
  have hpad : padChar ≠ '\n' ∧ padChar ≠ '\r' := by decide
  induction src using encodeChars.induct with
  | case1 => simp [encodeChars]
  | case2 b0 =>
    intro c hc
    simp only [encodeChars, List.mem_cons, List.mem_singleton, List.not_mem_nil, or_false] at hc
    rcases hc with rfl | rfl | rfl | rfl <;> first | exact hp _ | exact hpad
  | case3 b0 b1 =>
    intro c hc
    simp only [encodeChars, List.mem_cons, List.mem_singleton, List.not_mem_nil, or_false] at hc
    rcases hc with rfl | rfl | rfl | rfl <;> first | exact hp _ | exact hpad
  | case4 b0 b1 b2 rest ih =>
    intro c hc
    simp only [encodeChars, List.mem_cons] at hc
    rcases hc with rfl | rfl | rfl | rfl | hc
    · exact hp _
    · exact hp _
    · exact hp _
    · exact hp _
    · exact ih c hc

/-- Decoding the standard base64 text of a byte sequence gives it back. -/
theorem DecodeString_EncodeToString (src : List Byte) :
    DecodeString (EncodeToString src) = some src := by
  have hf : (encodeChars src).filter (fun c => c ≠ '\n' ∧ c ≠ '\r') = encodeChars src := by
    rw [List.filter_eq_self]
    intro c hc
    simpa using encodeChars_plain src c hc
  simp only [DecodeString, EncodeToString, String.toList]
  rw [hf]
  exact decodeChars_encodeChars src

/-! ## Fixture round trip -/

theorem decodeSigs_map (C : Cipher) (l : List C.Sig)
    (hSig : ∀ x ∈ l, C.SigFromHex (C.SigHex x) = .ok x) :
    decodeSigs C (l.map C.SigHex) = .ok l := by
  induction l with
  | nil => rfl
  | cons x rest ih =>
    simp only [List.map_cons, decodeSigs, hSig x (List.mem_cons_self _ _),
      ih (fun y hy => hSig y (List.mem_cons_of_mem _ hy))]

theorem KeysTestDataFromJSON_ToJSON (C : Cipher) (k : KeysTestData C)
    (hAddr : C.DecodeBase58Address (C.AddressString k.Address) = .ok k.Address)
    (hBtc : C.DecodeBase58BitcoinAddress (C.BitcoinAddressString k.BitcoinAddress) =
      .ok k.BitcoinAddress)
    (hSec : C.SecKeyFromHex (C.SecKeyHex k.Secret) = .ok k.Secret)
    (hPub : C.PubKeyFromHex (C.PubKeyHex k.Public) = .ok k.Public)
    (hSig : ∀ x ∈ k.Signatures.toList, C.SigFromHex (C.SigHex x) = .ok x) :
    KeysTestDataFromJSON C k.ToJSON =
      .ok { Address := k.Address, BitcoinAddress := k.BitcoinAddress, Secret := k.Secret,
            Public := k.Public, Signatures := .mk k.Signatures.toList } := by
  simp only [KeysTestDataFromJSON, KeysTestData.ToJSON, hAddr, hBtc, hSec, hPub,
    decodeSigs_map C k.Signatures.toList hSig]

theorem decodeKeys_map (C : Cipher) (l : List (KeysTestData C))
    (hcodec : ∀ k ∈ l,
      C.DecodeBase58Address (C.AddressString k.Address) = .ok k.Address ∧
      C.DecodeBase58BitcoinAddress (C.BitcoinAddressString k.BitcoinAddress) =
        .ok k.BitcoinAddress ∧
      C.SecKeyFromHex (C.SecKeyHex k.Secret) = .ok k.Secret ∧
      C.PubKeyFromHex (C.PubKeyHex k.Public) = .ok k.Public ∧
      ∀ x ∈ k.Signatures.toList, C.SigFromHex (C.SigHex x) = .ok x) :
    decodeKeys C (l.map KeysTestData.ToJSON) =
      .ok (l.map fun k =>
        { Address := k.Address, BitcoinAddress := k.BitcoinAddress, Secret := k.Secret,
          Public := k.Public, Signatures := .mk k.Signatures.toList }) := by
  induction l with
  | nil => rfl
  | cons k rest ih =>
    obtain ⟨h1, h2, h3, h4, h5⟩ := hcodec k (List.mem_cons_self _ _)
    simp only [List.map_cons, decodeKeys, KeysTestDataFromJSON_ToJSON C k h1 h2 h3 h4 h5,
      ih (fun y hy => hcodec y (List.mem_cons_of_mem _ hy))]

/-- The exact result of decoding an encoded fixture: the contents of `s`, with
every slice (seed, keys, signatures) non-nil, also where `s` holds a nil
slice. -/
theorem SeedTestDataFromJSON_ToJSON (C : Cipher) (s : SeedTestData C)
    (hcodec : ∀ k ∈ s.Keys.toList,
      C.DecodeBase58Address (C.AddressString k.Address) = .ok k.Address ∧
      C.DecodeBase58BitcoinAddress (C.BitcoinAddressString k.BitcoinAddress) =
        .ok k.BitcoinAddress ∧
      C.SecKeyFromHex (C.SecKeyHex k.Secret) = .ok k.Secret ∧
      C.PubKeyFromHex (C.PubKeyHex k.Public) = .ok k.Public ∧
      ∀ x ∈ k.Signatures.toList, C.SigFromHex (C.SigHex x) = .ok x) :
    SeedTestDataFromJSON C s.ToJSON =
      .ok { Seed := .mk s.Seed.toList,
            Keys := .mk (s.Keys.toList.map fun k =>
              { Address := k.Address, BitcoinAddress := k.BitcoinAddress, Secret := k.Secret,
                Public := k.Public, Signatures := .mk k.Signatures.toList }) } := by
  simp only [SeedTestDataFromJSON, SeedTestData.ToJSON, DecodeString_EncodeToString,
    Slice.toList_mk]
  rw [decodeKeys_map C s.Keys.toList hcodec]

/-- C1, fixture round trip: for every `s` whose component codecs decode what
they encoded, that is, for every key of `s` the base58 text of its address and
of its bitcoin address and the hex text of its secret, of its public key and
of each of its signatures decode to the value they were written from,
`SeedTestDataFromJSON (s.ToJSON)` succeeds, and its result has the seed bytes
of `s`, as many keys as `s`, and at each index a key with the address, bitcoin
address, secret, public key and signature sequence of the key of `s` at that
index (a key without signatures comes back without signatures). Nothing is
assumed of the codecs on other values. -/
theorem SeedTestData_round_trip (C : Cipher) (s : SeedTestData C)
    (hcodec : ∀ k ∈ s.Keys.toList,
      C.DecodeBase58Address (C.AddressString k.Address) = .ok k.Address ∧
      C.DecodeBase58BitcoinAddress (C.BitcoinAddressString k.BitcoinAddress) =
        .ok k.BitcoinAddress ∧
      C.SecKeyFromHex (C.SecKeyHex k.Secret) = .ok k.Secret ∧
      C.PubKeyFromHex (C.PubKeyHex k.Public) = .ok k.Public ∧
      ∀ x ∈ k.Signatures.toList, C.SigFromHex (C.SigHex x) = .ok x) :
    ∃ r, SeedTestDataFromJSON C s.ToJSON = .ok r ∧
      r.Seed.toList = s.Seed.toList ∧
      r.Keys.len = s.Keys.len ∧
      ∀ i k, s.Keys.toList.get? i = some k →
        ∃ k', r.Keys.toList.get? i = some k' ∧
          k'.Address = k.Address ∧ k'.BitcoinAddress = k.BitcoinAddress ∧
          k'.Secret = k.Secret ∧ k'.Public = k.Public ∧
          k'.Signatures.toList = k.Signatures.toList := by
  refine ⟨{ Seed := .mk s.Seed.toList,
             Keys := .mk (s.Keys.toList.map fun k =>
               { Address := k.Address, BitcoinAddress := k.BitcoinAddress, Secret := k.Secret,
                 Public := k.Public, Signatures := .mk k.Signatures.toList }) }, ?_, ?_, ?_, ?_⟩
  · exact SeedTestDataFromJSON_ToJSON C s hcodec
  · rfl
  · simp [Slice.len, Slice.toList]
  · intro i k hk
    simp only [Slice.toList, List.get?_eq_getElem?, List.getElem?_map] at hk ⊢
    rw [hk]
    exact ⟨_, rfl, rfl, rfl, rfl, rfl, rfl⟩

theorem unary_length (n : Nat) : (unary n).length = n := by
  simp [unary, String.length]

/-- Instance of the round trip at `exampleStrictRoundTripData` over a cipher
whose decoders reject the null value: the codecs decode the fields of the
fixture, though not every value of their types. -/
theorem SeedTestData_round_trip_witness :
    exampleStrictCipher.SecKeyFromHex (exampleStrictCipher.SecKeyHex (0 : Nat)) ≠
      .ok (0 : Nat) ∧
    ∃ r, SeedTestDataFromJSON exampleStrictCipher exampleStrictRoundTripData.ToJSON = .ok r ∧
      r.Seed.toList = exampleStrictRoundTripData.Seed.toList ∧
      r.Keys.len = exampleStrictRoundTripData.Keys.len ∧
      ∀ i k, exampleStrictRoundTripData.Keys.toList.get? i = some k →
        ∃ k', r.Keys.toList.get? i = some k' ∧
          k'.Address = k.Address ∧ k'.BitcoinAddress = k.BitcoinAddress ∧
          k'.Secret = k.Secret ∧ k'.Public = k.Public ∧
          k'.Signatures.toList = k.Signatures.toList :=
  ⟨(fun h => by cases h),
    SeedTestData_round_trip exampleStrictCipher exampleStrictRoundTripData (by
      intro k hk
      simp only [exampleStrictRoundTripData, Slice.toList_mk, List.mem_cons,
        List.mem_singleton, List.not_mem_nil, or_false] at hk
      rcases hk with rfl | rfl
      · exact ⟨rfl, rfl, rfl, rfl, by
          intro x hx
          simp only [Slice.toList_mk, List.mem_singleton] at hx
          subst hx
          rfl⟩
      · exact ⟨rfl, rfl, rfl, rfl, by
          intro x hx
          simp [Slice.toList] at hx⟩)⟩

/-! ## Lemmas on the loops of `ValidateSeedData` -/

theorem validateSignature_ok_iff (C : Cipher) (sign : Signer C) (s : C.SecKey) (p : C.PubKey)
    (addr1 : C.Address) (sig : C.Sig) (h : C.SHA256) (n m : Nat) :
    validateSignature C sign s p addr1 sig h n = .ok m ↔
      sig ≠ C.nullSig ∧ C.VerifyPubKeySignedHash p sig h = none ∧
      C.VerifyAddressSignedHash addr1 sig h = none ∧ C.VerifySignedHash sig h = none ∧
      C.PubKeyFromSig sig h = .ok p ∧
      (∃ sig2, sign n h s = some sig2 ∧ sig2 ≠ C.nullSig) ∧ m = n + 1 := by
  unfold validateSignature
  constructor
  · intro hv
    split at hv
    · cases hv
    split at hv
    · cases hv
    split at hv
    · cases hv
    split at hv
    · cases hv
    split at hv
    · cases hv
    split at hv
    · cases hv
    split at hv
    · cases hv
    split at hv
    · cases hv
    rename_i hsig _ h1 _ h2 _ h3 _ p2 h4 hp _ sig2 h5 hs2
    injection hv with hv
    have hp2 : p = p2 := by simpa using hp
    subst hp2
    exact ⟨hsig, h1, h2, h3, h4, ⟨sig2, h5, hs2⟩, hv.symm⟩
  · rintro ⟨hsig, h1, h2, h3, h4, ⟨sig2, h5, hs2⟩, rfl⟩
    simp [hsig, h1, h2, h3, h4, h5, hs2]

theorem validateSignatures_ok_iff (C : Cipher) (sign : Signer C) (s : C.SecKey) (p : C.PubKey)
    (addr1 : C.Address) (sigs : Slice C.Sig) (hs : List C.SHA256) (j n m : Nat) :
    validateSignatures C sign s p addr1 sigs j hs n = .ok m ↔
      m = n + hs.length ∧
      ∀ t h, hs.get? t = some h →
        ∃ sig, sigs.toList.get? (j + t) = some sig ∧
          validateSignature C sign s p addr1 sig h (n + t) = .ok (n + t + 1) := by
  induction hs generalizing j n with
  | nil => simp [validateSignatures, eq_comm]
  | cons h rest ih =>
    unfold validateSignatures
    constructor
    · intro hv
      split at hv
      · cases hv
      rename_i sig hsig
      split at hv
      · cases hv
      rename_i k hk
      have hk1 : k = n + 1 := ((validateSignature_ok_iff C sign s p addr1 sig h n k).1 hk).2.2.2.2.2.2
      subst hk1
      obtain ⟨hm, hall⟩ := (ih (j + 1) (n + 1)).1 hv
      refine ⟨by simp [hm]; omega, ?_⟩
      intro t h' ht
      cases t with
      | zero =>
        simp only [List.get?_cons_zero, Option.some.injEq] at ht
        subst ht
        exact ⟨sig, by simpa using hsig, by simpa using hk⟩
      | succ t =>
        simp only [List.get?_cons_succ] at ht
        obtain ⟨sig', hs', hv'⟩ := hall t h' ht
        refine ⟨sig', ?_, ?_⟩
        · rw [← hs']; congr 1; omega
        · have e1 : n + (t + 1) = n + 1 + t := by omega
          rw [e1]; exact hv'
    · rintro ⟨hm, hall⟩
      obtain ⟨sig, hsig, hv⟩ := hall 0 h rfl
      simp only [Nat.add_zero] at hsig hv
      rw [hsig]
      simp only [hv]
      apply (ih (j + 1) (n + 1)).2
      refine ⟨by simp at hm; omega, ?_⟩
      intro t h' ht
      obtain ⟨sig', hs', hv'⟩ := hall (t + 1) h' (by simpa using ht)
      refine ⟨sig', ?_, ?_⟩
      · rw [← hs']; congr 1; omega
      · have e1 : n + (t + 1) = n + 1 + t := by omega
        rw [← e1]; exact hv'

theorem validateKey_of_pass (C : Cipher) (sign : Signer C) (d : SeedTestData C)
    (inp : Option (InputTestData C)) (i : Nat) (s : C.SecKey) (n : Nat)
    (k : KeysTestData C) (p : C.PubKey)
    (hk : d.Keys.toList.get? i = some k) (hp : keyChecksPass C k s p) :
    validateKey C sign d inp i s n = validateKeySignatures C sign inp k s p n := by
  obtain ⟨h1, h2, h3, h4, h5, h6, h7, h8, h9, h10, h11, h12, h13⟩ := hp
  unfold validateKey
  simp only [hk, h3, h8, h11]
  simp [h1, h2, h4, h5, h6, h7, h9, h10, h12, h13]

theorem validateKey_ok_imp (C : Cipher) (sign : Signer C) (d : SeedTestData C)
    (inp : Option (InputTestData C)) (i : Nat) (s : C.SecKey) (n m : Nat)
    (hv : validateKey C sign d inp i s n = .ok m) :
    ∃ k p, d.Keys.toList.get? i = some k ∧ keyChecksPass C k s p ∧
      validateKeySignatures C sign inp k s p n = .ok m := by
  unfold validateKey at hv
  by_cases c1 : s = C.nullSecKey
  · rw [if_pos c1] at hv; cases hv
  rw [if_neg c1] at hv
  cases hk : d.Keys.toList.get? i with
  | none => rw [hk] at hv; cases hv
  | some k =>
  rw [hk] at hv
  simp only [] at hv
  by_cases c2 : k.Secret ≠ s
  · rw [if_pos c2] at hv; cases hv
  rw [if_neg c2] at hv
  cases hp : C.MustPubKeyFromSecKey s with
  | none => rw [hp] at hv; cases hv
  | some p =>
  rw [hp] at hv
  simp only [] at hv
  by_cases c3 : p = C.nullPubKey
  · rw [if_pos c3] at hv; cases hv
  rw [if_neg c3] at hv
  by_cases c4 : k.Public ≠ p
  · rw [if_pos c4] at hv; cases hv
  rw [if_neg c4] at hv
  by_cases c5 : C.AddressFromPubKey p = C.nullAddress
  · rw [if_pos c5] at hv; cases hv
  rw [if_neg c5] at hv
  by_cases c6 : k.Address ≠ C.AddressFromPubKey p
  · rw [if_pos c6] at hv; cases hv
  rw [if_neg c6] at hv
  cases ha2 : C.MustAddressFromSecKey s with
  | none => rw [ha2] at hv; cases hv
  | some addr2 =>
  rw [ha2] at hv
  simp only [] at hv
  by_cases c7 : C.AddressFromPubKey p ≠ addr2
  · rw [if_pos c7] at hv; cases hv
  rw [if_neg c7] at hv
  by_cases c8 : C.BitcoinAddressFromPubKey p = C.nullBitcoinAddress
  · rw [if_pos c8] at hv; cases hv
  rw [if_neg c8] at hv
  by_cases c9 : k.BitcoinAddress ≠ C.BitcoinAddressFromPubKey p
  · rw [if_pos c9] at hv; cases hv
  rw [if_neg c9] at hv
  cases hb2 : C.MustBitcoinAddressFromSecKey s with
  | none => rw [hb2] at hv; cases hv
  | some b2 =>
  rw [hb2] at hv
  simp only [] at hv
  by_cases c10 : C.BitcoinAddressFromPubKey p ≠ b2
  · rw [if_pos c10] at hv; cases hv
  rw [if_neg c10] at hv
  by_cases c11 : C.VerifySeckey s ≠ 1
  · rw [if_pos c11] at hv; cases hv
  rw [if_neg c11] at hv
  by_cases c12 : C.VerifyPubkey p ≠ 1
  · rw [if_pos c12] at hv; cases hv
  rw [if_neg c12] at hv
  have e7 : C.AddressFromPubKey p = addr2 := not_not.mp c7
  have e10 : C.BitcoinAddressFromPubKey p = b2 := not_not.mp c10
  exact ⟨k, p, rfl, ⟨c1, not_not.mp c2, hp, c3, not_not.mp c4, c5, not_not.mp c6,
    (by rw [e7]; exact ha2), c8, not_not.mp c9, (by rw [e10]; exact hb2),
    not_not.mp c11, not_not.mp c12⟩, hv⟩

theorem validateKeys_append (C : Cipher) (sign : Signer C) (d : SeedTestData C)
    (inp : Option (InputTestData C)) (pre post : List C.SecKey) (i n : Nat) :
    validateKeys C sign d inp i (pre ++ post) n =
      match validateKeys C sign d inp i pre n with
      | .error e => .error e
      | .ok m => validateKeys C sign d inp (i + pre.length) post m := by
  induction pre generalizing i n with
  | nil => simp [validateKeys]
  | cons s rest ih =>
    simp only [List.cons_append, validateKeys, List.length_cons]
    cases validateKey C sign d inp i s n with
    | error e => rfl
    | ok m =>
      have e1 : i + 1 + rest.length = i + (rest.length + 1) := by omega
      have h2 := ih (i + 1) m
      rw [e1] at h2
      exact h2

theorem validateKeys_ok_imp (C : Cipher) (sign : Signer C) (d : SeedTestData C)
    (inp : Option (InputTestData C)) (keys : List C.SecKey) (i n m : Nat)
    (hv : validateKeys C sign d inp i keys n = .ok m) :
    ∀ t s, keys.get? t = some s →
      ∃ a b, validateKey C sign d inp (i + t) s a = .ok b := by
  induction keys generalizing i n with
  | nil => intro t s ht; simp at ht
  | cons s0 rest ih =>
    intro t s ht
    unfold validateKeys at hv
    cases hk : validateKey C sign d inp i s0 n with
    | error e => rw [hk] at hv; cases hv
    | ok b =>
      rw [hk] at hv
      cases t with
      | zero =>
        simp only [List.get?_cons_zero, Option.some.injEq] at ht
        subst ht
        exact ⟨n, b, hk⟩
      | succ t =>
        simp only [List.get?_cons_succ] at ht
        obtain ⟨a, b', hab⟩ := ih (i + 1) b hv t s ht
        refine ⟨a, b', ?_⟩
        have e1 : i + (t + 1) = i + 1 + t := by omega
        rw [e1]; exact hab

theorem validateKeys_const_ok (C : Cipher) (sign : Signer C) (d : SeedTestData C)
    (inp : Option (InputTestData C)) (keys : List C.SecKey) (i n : Nat)
    (hall : ∀ t s, keys.get? t = some s → validateKey C sign d inp (i + t) s n = .ok n) :
    validateKeys C sign d inp i keys n = .ok n := by
  induction keys generalizing i with
  | nil => rfl
  | cons s0 rest ih =>
    unfold validateKeys
    have h0 := hall 0 s0 rfl
    simp only [Nat.add_zero] at h0
    rw [h0]
    simp only []
    apply ih
    intro t s ht
    have := hall (t + 1) s (by simpa using ht)
    have e1 : i + (t + 1) = i + 1 + t := by omega
    rw [← e1]; exact this

theorem validateKey_congr (C : Cipher) (sign : Signer C) (d d' : SeedTestData C)
    (inp : Option (InputTestData C)) (i : Nat) (s : C.SecKey) (n : Nat)
    (h : d.Keys.toList.get? i = d'.Keys.toList.get? i) :
    validateKey C sign d inp i s n = validateKey C sign d' inp i s n := by
  unfold validateKey
  rw [h]

theorem validateKeys_congr (C : Cipher) (sign : Signer C) (d d' : SeedTestData C)
    (inp : Option (InputTestData C)) (keys : List C.SecKey) (i n : Nat)
    (h : ∀ t, t < keys.length → d.Keys.toList.get? (i + t) = d'.Keys.toList.get? (i + t)) :
    validateKeys C sign d inp i keys n = validateKeys C sign d' inp i keys n := by
  induction keys generalizing i n with
  | nil => rfl
  | cons s0 rest ih =>
    unfold validateKeys
    have h0 := h 0 (by simp)
    simp only [Nat.add_zero] at h0
    rw [validateKey_congr C sign d d' inp i s0 n h0]
    cases validateKey C sign d' inp i s0 n with
    | error e => rfl
    | ok m =>
      simp only []
      apply ih
      intro t ht
      have := h (t + 1) (by simp; omega)
      have e1 : i + (t + 1) = i + 1 + t := by omega
      rw [← e1]; exact this

theorem ValidateSeedData_ok_iff (C : Cipher) (sign : Signer C) (d : SeedTestData C)
    (inp : Option (InputTestData C)) :
    ValidateSeedData C sign d inp = .ok () ↔
      ∃ keys m, C.MustGenerateDeterministicKeyPairs d.Seed d.Keys.len = some keys ∧
        keys.length = d.Keys.len ∧ validateKeys C sign d inp 0 keys 0 = .ok m := by
  unfold ValidateSeedData
  constructor
  · intro hv
    cases hg : C.MustGenerateDeterministicKeyPairs d.Seed d.Keys.len with
    | none => rw [hg] at hv; cases hv
    | some keys =>
      rw [hg] at hv
      simp only [] at hv
      by_cases hl : d.Keys.len ≠ keys.length
      · rw [if_pos hl] at hv; cases hv
      rw [if_neg hl] at hv
      cases hk : validateKeys C sign d inp 0 keys 0 with
      | error e => rw [hk] at hv; cases hv
      | ok m => exact ⟨keys, m, rfl, (not_not.mp hl).symm, hk⟩
  · rintro ⟨keys, m, hg, hl, hk⟩
    rw [hg]
    simp only []
    rw [if_neg (by simp [hl]), hk]

theorem validateKeySignatures_none (C : Cipher) (sign : Signer C) (k : KeysTestData C)
    (s : C.SecKey) (p : C.PubKey) (n : Nat) :
    validateKeySignatures C sign none k s p n =
      if k.Signatures.len ≠ 0 then
        .error (.error "seed data contains signatures but input data was not provided")
      else .ok n := by
  simp [validateKeySignatures]

theorem validateKeySignatures_some (C : Cipher) (sign : Signer C) (input : InputTestData C)
    (k : KeysTestData C) (s : C.SecKey) (p : C.PubKey) (n : Nat) :
    validateKeySignatures C sign (some input) k s p n =
      if k.Signatures.len ≠ input.Hashes.len then
        .error (.error
          "Number of signatures in seed data does not match number of hashes in input data")
      else
        validateSignatures C sign s p (C.AddressFromPubKey p) k.Signatures 0
          input.Hashes.toList n := by
  simp [validateKeySignatures]

/-! ## Validation without an input vector -/

/-- C2, success without an input vector: `ValidateSeedData d nil` returns nil
exactly when the generator returns `len(d.Keys)` secrets and, at every index,
the generated secret is non-null and equals the stored secret, its public key
is non-null and equals the stored one, the address of that public key is
non-null, equals the stored address and equals the address derived from the
secret, likewise for the bitcoin address, `VerifySeckey` and `VerifyPubkey`
return 1, and the key stores no signature. -/
theorem ValidateSeedData_nil_iff (C : Cipher) (sign : Signer C) (d : SeedTestData C) :
    ValidateSeedData C sign d none = .ok () ↔
      ∃ keys, C.MustGenerateDeterministicKeyPairs d.Seed d.Keys.len = some keys ∧
        keys.length = d.Keys.len ∧
        ∀ i s, keys.get? i = some s →
          ∃ k p, d.Keys.toList.get? i = some k ∧
            s ≠ C.nullSecKey ∧ k.Secret = s ∧
            C.MustPubKeyFromSecKey s = some p ∧ p ≠ C.nullPubKey ∧ k.Public = p ∧
            C.AddressFromPubKey p ≠ C.nullAddress ∧ k.Address = C.AddressFromPubKey p ∧
            C.MustAddressFromSecKey s = some (C.AddressFromPubKey p) ∧
            C.BitcoinAddressFromPubKey p ≠ C.nullBitcoinAddress ∧
            k.BitcoinAddress = C.BitcoinAddressFromPubKey p ∧
            C.MustBitcoinAddressFromSecKey s = some (C.BitcoinAddressFromPubKey p) ∧
            C.VerifySeckey s = 1 ∧ C.VerifyPubkey p = 1 ∧
            k.Signatures.len = 0 := by
  rw [ValidateSeedData_ok_iff]
  constructor
  · rintro ⟨keys, m, hg, hl, hk⟩
    refine ⟨keys, hg, hl, ?_⟩
    intro i s hs
    obtain ⟨a, b, hab⟩ := validateKeys_ok_imp C sign d none keys 0 0 m hk i s hs
    rw [Nat.zero_add] at hab
    obtain ⟨k, p, hget, hpass, hsig⟩ := validateKey_ok_imp C sign d none i s a b hab
    rw [validateKeySignatures_none] at hsig
    by_cases hz : k.Signatures.len ≠ 0
    · rw [if_pos hz] at hsig; cases hsig
    obtain ⟨h1, h2, h3, h4, h5, h6, h7, h8, h9, h10, h11, h12, h13⟩ := hpass
    exact ⟨k, p, hget, h1, h2, h3, h4, h5, h6, h7, h8, h9, h10, h11, h12, h13, not_not.mp hz⟩
  · rintro ⟨keys, hg, hl, hall⟩
    refine ⟨keys, 0, hg, hl, ?_⟩
    apply validateKeys_const_ok
    intro t s hs
    rw [Nat.zero_add]
    obtain ⟨k, p, hget, h1, h2, h3, h4, h5, h6, h7, h8, h9, h10, h11, h12, h13, hz⟩ :=
      hall t s hs
    rw [validateKey_of_pass C sign d none t s 0 k p hget
      ⟨h1, h2, h3, h4, h5, h6, h7, h8, h9, h10, h11, h12, h13⟩,
      validateKeySignatures_none, if_neg (by simp [hz])]

/-! ## Validation against an input vector -/

/-- C3, soundness of signature validation: when `ValidateSeedData d in`
returns nil for a non-nil `in`, the generator returned one secret per key and,
for every key index `i` and digest index `j`, the stored signature
`d.Keys[i].Signatures[j]` exists, is non-null, passes `VerifyPubKeySignedHash`
against the public key derived from the generated secret,
`VerifyAddressSignedHash` against the address derived from that public key and
`VerifySignedHash`, and `PubKeyFromSig` recovers exactly that public key. -/
theorem ValidateSeedData_signatures_sound (C : Cipher) (sign : Signer C) (d : SeedTestData C)
    (input : InputTestData C) (hv : ValidateSeedData C sign d (some input) = .ok ()) :
    ∃ keys, C.MustGenerateDeterministicKeyPairs d.Seed d.Keys.len = some keys ∧
      keys.length = d.Keys.len ∧
      ∀ i s, keys.get? i = some s →
        ∃ k p, d.Keys.toList.get? i = some k ∧ C.MustPubKeyFromSecKey s = some p ∧
          ∀ j h, input.Hashes.toList.get? j = some h →
            ∃ sig, k.Signatures.toList.get? j = some sig ∧ sig ≠ C.nullSig ∧
              C.VerifyPubKeySignedHash p sig h = none ∧
              C.VerifyAddressSignedHash (C.AddressFromPubKey p) sig h = none ∧
              C.VerifySignedHash sig h = none ∧
              C.PubKeyFromSig sig h = .ok p := by
  obtain ⟨keys, m, hg, hl, hk⟩ := (ValidateSeedData_ok_iff C sign d (some input)).1 hv
  refine ⟨keys, hg, hl, ?_⟩
  intro i s hs
  obtain ⟨a, b, hab⟩ := validateKeys_ok_imp C sign d (some input) keys 0 0 m hk i s hs
  rw [Nat.zero_add] at hab
  obtain ⟨k, p, hget, hpass, hsig⟩ := validateKey_ok_imp C sign d (some input) i s a b hab
  refine ⟨k, p, hget, hpass.2.2.1, ?_⟩
  rw [validateKeySignatures_some] at hsig
  by_cases hc : k.Signatures.len ≠ input.Hashes.len
  · rw [if_pos hc] at hsig; cases hsig
  rw [if_neg hc] at hsig
  intro j h hj
  obtain ⟨sig, hsj, hvs⟩ :=
    ((validateSignatures_ok_iff C sign s p _ k.Signatures _ 0 a b).1 hsig).2 j h hj
  rw [Nat.zero_add] at hsj
  obtain ⟨h1, h2, h3, h4, h5, _, _⟩ :=
    (validateSignature_ok_iff C sign s p _ sig h (a + j) (a + j + 1)).1 hvs
  exact ⟨sig, hsj, h1, h2, h3, h4, h5⟩

/-- Instance of the soundness of signature validation at `exampleSignedData`
and `exampleInput`. -/
theorem ValidateSeedData_signatures_sound_witness :
    ValidateSeedData (exampleCipher [5, 6]) (exampleSigner [5, 6]) exampleSignedData
        (some exampleInput) = .ok () ∧
    ∃ keys, (exampleCipher [5, 6]).MustGenerateDeterministicKeyPairs exampleSignedData.Seed
        exampleSignedData.Keys.len = some keys ∧
      keys.length = exampleSignedData.Keys.len ∧
      ∀ i s, keys.get? i = some s →
        ∃ k p, exampleSignedData.Keys.toList.get? i = some k ∧
          (exampleCipher [5, 6]).MustPubKeyFromSecKey s = some p ∧
          ∀ j h, exampleInput.Hashes.toList.get? j = some h →
            ∃ sig, k.Signatures.toList.get? j = some sig ∧
              sig ≠ (exampleCipher [5, 6]).nullSig ∧
              (exampleCipher [5, 6]).VerifyPubKeySignedHash p sig h = none ∧
              (exampleCipher [5, 6]).VerifyAddressSignedHash
                ((exampleCipher [5, 6]).AddressFromPubKey p) sig h = none ∧
              (exampleCipher [5, 6]).VerifySignedHash sig h = none ∧
              (exampleCipher [5, 6]).PubKeyFromSig sig h = .ok p :=
  ⟨rfl, ValidateSeedData_signatures_sound (exampleCipher [5, 6]) (exampleSigner [5, 6])
    exampleSignedData exampleInput rfl⟩

/-! ## The genesis binding gate -/

/-- C4, genesis gate: for a secret key `k` parsed from the environment and a
genesis address `a`, `readRunENVs a` returns `k` exactly when
`cipher.AddressFromSecKey k` succeeds with the result `a`; when the derivation
fails or gives another address, the gate ends in `log.Fatal` and returns no
key. -/
theorem readRunENVs_gate (W : RunWorld) (k : W.SecKey) (a : W.Address)
    (hk : W.parseSKEnv W.genSKEnv = .ok k) :
    (readRunENVs W a = .ok k ↔ W.AddressFromSecKey k = .ok a) ∧
    (∀ k', readRunENVs W a = .ok k' → k' = k) ∧
    (∀ e, W.AddressFromSecKey k = .error e →
      readRunENVs W a = .error (.fatal "Failed to extract genesis address.")) ∧
    (∀ b, W.AddressFromSecKey k = .ok b → b ≠ a →
      readRunENVs W a = .error (.fatal
        "Provided genesis secret key does not match genesis address from chain spec.")) := by
  unfold readRunENVs
  rw [hk]
  simp only []
  cases hA : W.AddressFromSecKey k with
  | error e => simp
  | ok b =>
    simp only []
    by_cases hb : b = a
    · subst hb; simp
    · simp [hb]

/-- Instance of the gate at a world whose environment holds the secret `5`,
with address `7`. -/
theorem readRunENVs_gate_witness :
    (exampleWorld 5 7).parseSKEnv (exampleWorld 5 7).genSKEnv = .ok (5 : Nat) ∧
    readRunENVs (exampleWorld 5 7) (7 : Nat) = .ok (5 : Nat) ∧
    readRunENVs (exampleWorld 5 7) (8 : Nat) = .error (.fatal
      "Provided genesis secret key does not match genesis address from chain spec.") :=
  ⟨rfl, (readRunENVs_gate (exampleWorld 5 7) (5 : Nat) (7 : Nat) rfl).1.2 rfl,
    (readRunENVs_gate (exampleWorld 5 7) (5 : Nat) (8 : Nat) rfl).2.2.2 (7 : Nat) rfl
      (by decide : (7 : Nat) ≠ 8)⟩

/-- C5, the check precedes a broadcast: when a run of `cmdRun` calls
`BroadcastMainExp` with the secret key `sk`, the `inject` flag is set and `sk`
is the key returned by `readRunENVs` on the genesis address of the chain spec,
so the address derived from `sk` is that genesis address. -/
theorem cmdRun_broadcast_checked (W : RunWorld) (args : List String) (c : W.Client)
    (sk : W.SecKey) (ux : W.UxOut) (err : Option W.Error)
    (h : cmdRun W args = .broadcastMainExp c sk ux err) :
    ∃ flags a, processRunFlags W args = .ok (flags, W.processSpecFlags args, sk) ∧
      flags.inject = true ∧
      W.ObtainGenesisAddr (W.processSpecFlags args) = .ok a ∧
      readRunENVs W a = .ok sk ∧
      W.AddressFromSecKey sk = .ok a := by
  unfold cmdRun at h
  cases hp : processRunFlags W args with
  | error e => rw [hp] at h; cases h
  | ok r =>
    obtain ⟨flags, spec, genSK⟩ := r
    rw [hp] at h
    simp only [] at h
    cases hx : W.ExtractCXArgs args with
    | error e => rw [hx] at h; cases h
    | ok cxRes =>
      rw [hx] at h
      simp only [] at h
      cases hg : W.ObtainGenesisAddr spec with
      | error e => rw [hg] at h; cases h
      | ok genesisAddr =>
        rw [hg] at h
        simp only [] at h
        cases hc : W.PrepareChainProg (W.ListSourceNames cxRes) cxRes (W.NewClient flags.nodeAddr)
            genesisAddr flags.debugLexer flags.debugProfile with
        | error e => rw [hc] at h; cases h
        | ok r2 =>
          obtain ⟨ux2, progB⟩ := r2
          rw [hc] at h
          simp only [] at h
          by_cases hi : flags.inject = true
          · rw [if_pos hi] at h
            injection h with _ hsk _ _
            subst hsk
            -- the key comes from `readRunENVs` inside `processRunFlags`
            have hp2 := hp
            unfold processRunFlags at hp2
            simp only [] at hp2
            cases hw : W.ObtainWebInterfacePort (W.processSpecFlags args) with
            | error e => rw [hw] at hp2; cases hp2
            | ok webPort =>
              rw [hw] at hp2
              simp only [] at hp2
              cases hga : W.ObtainGenesisAddr (W.processSpecFlags args) with
              | error e => rw [hga] at hp2; cases hp2
              | ok a =>
                rw [hga] at hp2
                simp only [] at hp2
                cases hpa : W.Parse (false, 0, false, "http://127.0.0.1:" ++ toString webPort)
                    args with
                | error e => rw [hpa] at hp2; cases hp2
                | ok f =>
                  obtain ⟨f1, f2, f3, f4⟩ := f
                  rw [hpa] at hp2
                  simp only [] at hp2
                  by_cases h3 : f3 = true
                  · rw [if_pos h3] at hp2
                    cases hr : readRunENVs W a with
                    | error e => rw [hr] at hp2; cases hp2
                    | ok k =>
                      rw [hr] at hp2
                      simp only [Except.ok.injEq, Prod.mk.injEq] at hp2
                      obtain ⟨hf, hs, hk⟩ := hp2
                      subst hs hk
                      refine ⟨flags, a, rfl, hi, rfl, hr, ?_⟩
                      -- a key returned by the gate derives the genesis address
                      unfold readRunENVs at hr
                      cases hpk : W.parseSKEnv W.genSKEnv with
                      | error e => rw [hpk] at hr; cases hr
                      | ok k0 =>
                        rw [hpk] at hr
                        simp only [] at hr
                        cases hA : W.AddressFromSecKey k0 with
                        | error e => rw [hA] at hr; cases hr
                        | ok b =>
                          rw [hA] at hr
                          simp only [] at hr
                          by_cases hb : b ≠ a
                          · rw [if_pos hb] at hr; cases hr
                          · rw [if_neg hb] at hr
                            injection hr with hr
                            subst hr
                            rw [hA, not_not.mp hb]
                  · rw [if_neg h3] at hp2
                    simp only [Except.ok.injEq, Prod.mk.injEq] at hp2
                    obtain ⟨hf, _, _⟩ := hp2
                    subst hf
                    exact absurd hi h3
          · rw [if_neg hi] at h; cases h

/-- Instance at a run with the `-inject` argument in a world whose environment
holds the secret `5` of the genesis address `7`. -/
theorem cmdRun_broadcast_checked_witness :
    cmdRun (exampleWorld 5 7) ["-inject"] = .broadcastMainExp () (5 : Nat) () none ∧
    ∃ flags a, processRunFlags (exampleWorld 5 7) ["-inject"] =
        .ok (flags, (exampleWorld 5 7).processSpecFlags ["-inject"], (5 : Nat)) ∧
      flags.inject = true ∧
      (exampleWorld 5 7).ObtainGenesisAddr ((exampleWorld 5 7).processSpecFlags ["-inject"]) =
        .ok a ∧
      readRunENVs (exampleWorld 5 7) a = .ok (5 : Nat) ∧
      (exampleWorld 5 7).AddressFromSecKey (5 : Nat) = .ok a :=
  ⟨rfl, cmdRun_broadcast_checked (exampleWorld 5 7) ["-inject"] () (5 : Nat) () none rfl⟩

/-! ## Failures of `ValidateSeedData` -/

theorem validateKeys_none_unexpected (C : Cipher) (sign : Signer C) (d : SeedTestData C)
    (keys : List C.SecKey) (i n : Nat)
    (hpass : ∀ t s, keys.get? t = some s →
      ∃ k p, d.Keys.toList.get? (i + t) = some k ∧ keyChecksPass C k s p)
    (hsig : ∃ t s k, keys.get? t = some s ∧ d.Keys.toList.get? (i + t) = some k ∧
      k.Signatures.len ≠ 0) :
    validateKeys C sign d none i keys n =
      .error (.error "seed data contains signatures but input data was not provided") := by
  induction keys generalizing i with
  | nil =>
    obtain ⟨t, s, k, ht, _⟩ := hsig
    simp at ht
  | cons s0 rest ih =>
    unfold validateKeys
    obtain ⟨k0, p0, hk0, hp0⟩ := hpass 0 s0 rfl
    rw [Nat.add_zero] at hk0
    rw [validateKey_of_pass C sign d none i s0 n k0 p0 hk0 hp0, validateKeySignatures_none]
    by_cases hz : k0.Signatures.len ≠ 0
    · rw [if_pos hz]
    · rw [if_neg hz]
      simp only []
      apply ih
      · intro t s ht
        obtain ⟨k, p, hk, hp⟩ := hpass (t + 1) s (by simpa using ht)
        refine ⟨k, p, ?_, hp⟩
        have e1 : i + (t + 1) = i + 1 + t := by omega
        rw [← e1]; exact hk
      · obtain ⟨t, s, k, ht, hk, hne⟩ := hsig
        cases t with
        | zero =>
          rw [Nat.add_zero, hk0] at hk
          injection hk with hk
          subst hk
          exact absurd hne hz
        | succ t =>
          refine ⟨t, s, k, by simpa using ht, ?_, hne⟩
          have e1 : i + (t + 1) = i + 1 + t := by omega
          rw [← e1]; exact hk

/-- C7, unexpected signatures: when the generator returns one secret per key,
every key passes the key-level checks, the input vector is nil and some key
stores at least one signature, `ValidateSeedData d nil` fails with the error
"seed data contains signatures but input data was not provided". -/
theorem ValidateSeedData_unexpected_signatures (C : Cipher) (sign : Signer C)
    (d : SeedTestData C) (keys : List C.SecKey)
    (hg : C.MustGenerateDeterministicKeyPairs d.Seed d.Keys.len = some keys)
    (hl : keys.length = d.Keys.len)
    (hpass : ∀ i s, keys.get? i = some s →
      ∃ k p, d.Keys.toList.get? i = some k ∧ keyChecksPass C k s p)
    (hsig : ∃ j k, d.Keys.toList.get? j = some k ∧ k.Signatures.len ≠ 0) :
    ValidateSeedData C sign d none =
      .error (.error "seed data contains signatures but input data was not provided") := by
  unfold ValidateSeedData
  rw [hg]
  simp only []
  rw [if_neg (by simp [hl])]
  obtain ⟨j, k, hk, hne⟩ := hsig
  have hj : j < keys.length := by
    rw [hl]
    exact (List.get?_eq_some.1 hk).1
  have hs : keys.get? j = some (keys.get ⟨j, hj⟩) := List.get?_eq_get hj
  rw [validateKeys_none_unexpected C sign d keys 0 0
    (fun t s ht => by rw [Nat.zero_add]; exact hpass t s ht)
    ⟨j, _, k, hs, by rw [Nat.zero_add]; exact hk, hne⟩]

theorem exampleKey_pass (secrets : List Nat) (s : Nat) (sigs : Slice Nat) (hs : s ≠ 0) :
    keyChecksPass (exampleCipher secrets) (exampleKey secrets s sigs) s (s + 1 : Nat) := by
  refine ⟨hs, rfl, rfl, Nat.succ_ne_zero _, rfl, Nat.succ_ne_zero _, rfl, rfl,
    Nat.succ_ne_zero _, rfl, rfl, ?_, ?_⟩
  · show (if s = 0 then (0 : Int) else 1) = 1
    rw [if_neg hs]
  · show (if s + 1 = 0 then (0 : Int) else 1) = 1
    rw [if_neg (Nat.succ_ne_zero _)]

/-- Instance at `exampleStraySignatureData`, whose second key stores a
signature. -/
theorem ValidateSeedData_unexpected_signatures_witness :
    ValidateSeedData (exampleCipher [5, 6]) (exampleSigner [5, 6]) exampleStraySignatureData
      none =
      .error (.error "seed data contains signatures but input data was not provided") :=
  ValidateSeedData_unexpected_signatures (exampleCipher [5, 6]) (exampleSigner [5, 6])
    exampleStraySignatureData ([5, 6] : List Nat) rfl rfl
    (fun i s hi => by
      match i, hi with
      | 0, hi =>
        injection hi with hi
        subst hi
        exact ⟨_, _, rfl, exampleKey_pass [5, 6] 5 .nil (by decide)⟩
      | 1, hi =>
        injection hi with hi
        subst hi
        exact ⟨_, _, rfl, exampleKey_pass [5, 6] 6 (.mk [17]) (by decide)⟩
      | (n + 2), hi => simp at hi)
    ⟨1, _, rfl, by decide⟩

/-- C9, a null secret is never accepted: when the generator yields the null
secret at some index, `ValidateSeedData` does not return nil, for any stored
data and any input vector. -/
theorem ValidateSeedData_null_secret (C : Cipher) (sign : Signer C) (d : SeedTestData C)
    (inp : Option (InputTestData C)) (keys : List C.SecKey) (i : Nat)
    (hg : C.MustGenerateDeterministicKeyPairs d.Seed d.Keys.len = some keys)
    (hz : keys.get? i = some C.nullSecKey) :
    ValidateSeedData C sign d inp ≠ .ok () := by
  intro hv
  obtain ⟨keys', m, hg', _, hk⟩ := (ValidateSeedData_ok_iff C sign d inp).1 hv
  rw [hg] at hg'
  injection hg' with hg'
  subst hg'
  obtain ⟨a, b, hab⟩ := validateKeys_ok_imp C sign d inp keys 0 0 m hk i _ hz
  unfold validateKey at hab
  rw [if_pos rfl] at hab
  cases hab

/-- Instance at `exampleNullSecretData`: the generator yields the null secret
at index 0 and the stored secret is null too. -/
theorem ValidateSeedData_null_secret_witness :
    (exampleCipher [0]).MustGenerateDeterministicKeyPairs exampleNullSecretData.Seed
      exampleNullSecretData.Keys.len = some [(exampleCipher [0]).nullSecKey] ∧
    exampleNullSecretData.Keys.toList.map (fun k => k.Secret) = [(exampleCipher [0]).nullSecKey] ∧
    ValidateSeedData (exampleCipher [0]) (exampleSigner [0]) exampleNullSecretData none ≠
      .ok () :=
  ⟨rfl, rfl, ValidateSeedData_null_secret (exampleCipher [0]) (exampleSigner [0])
    exampleNullSecretData none [(exampleCipher [0]).nullSecKey] 0 rfl rfl⟩

theorem split_at_get {α : Type} (l : List α) (i : Nat) (x : α) (h : l.get? i = some x) :
    l = l.take i ++ x :: l.drop (i + 1) ∧ (l.take i).length = i := by
  induction l generalizing i with
  | nil => simp at h
  | cons y rest ih =>
    cases i with
    | zero =>
      simp only [List.get?_cons_zero, Option.some.injEq] at h
      subst h
      simp
    | succ i =>
      simp only [List.get?_cons_succ] at h
      obtain ⟨h1, h2⟩ := ih i h
      constructor
      · simp only [List.take_succ_cons, List.drop_succ_cons, List.cons_append]
        rw [← h1]
      · simp only [List.take_succ_cons, List.length_cons, h2]

theorem validateKeys_error_at (C : Cipher) (sign : Signer C) (d : SeedTestData C)
    (inp : Option (InputTestData C)) (keys : List C.SecKey) (i : Nat) (s : C.SecKey)
    (m : Nat) (e : Fault)
    (hs : keys.get? i = some s)
    (hprev : validateKeys C sign d inp 0 (keys.take i) 0 = .ok m)
    (he : validateKey C sign d inp i s m = .error e) :
    validateKeys C sign d inp 0 keys 0 = .error e := by
  obtain ⟨h1, h2⟩ := split_at_get keys i s hs
  rw [h1, validateKeys_append, hprev]
  simp only [h2, Nat.zero_add]
  unfold validateKeys
  rw [he]

theorem validateKeys_ok_at (C : Cipher) (sign : Signer C) (d : SeedTestData C)
    (inp : Option (InputTestData C)) (keys : List C.SecKey) (i : Nat) (s : C.SecKey)
    (m : Nat)
    (hs : keys.get? i = some s)
    (hv : validateKeys C sign d inp 0 keys 0 = .ok m) :
    ∃ a b, validateKeys C sign d inp 0 (keys.take i) 0 = .ok a ∧
      validateKey C sign d inp i s a = .ok b := by
  obtain ⟨h1, h2⟩ := split_at_get keys i s hs
  rw [h1, validateKeys_append] at hv
  cases hp : validateKeys C sign d inp 0 (keys.take i) 0 with
  | error e => rw [hp] at hv; cases hv
  | ok a =>
    rw [hp] at hv
    simp only [h2, Nat.zero_add] at hv
    unfold validateKeys at hv
    cases hk : validateKey C sign d inp i s a with
    | error e => rw [hk] at hv; cases hv
    | ok b => exact ⟨a, b, rfl, hk⟩

theorem ValidateSeedData_error_at (C : Cipher) (sign : Signer C) (d : SeedTestData C)
    (inp : Option (InputTestData C)) (keys : List C.SecKey) (i : Nat) (s : C.SecKey)
    (m : Nat) (e : Fault)
    (hg : C.MustGenerateDeterministicKeyPairs d.Seed d.Keys.len = some keys)
    (hl : keys.length = d.Keys.len)
    (hs : keys.get? i = some s)
    (hprev : validateKeys C sign d inp 0 (keys.take i) 0 = .ok m)
    (he : validateKey C sign d inp i s m = .error e) :
    ValidateSeedData C sign d inp = .error e := by
  unfold ValidateSeedData
  rw [hg]
  simp only []
  rw [if_neg (by simp [hl]), validateKeys_error_at C sign d inp keys i s m e hs hprev he]

/-- C6 as amended, signature count mismatch: for a non-nil input vector, when
the generator returns one secret per key, every key below index `i` is
accepted by the loop (its key-level and per-digest checks pass), key `i`
passes the key-level checks and its stored signature count differs from the
number of input digests, `ValidateSeedData` fails with the error "Number of
signatures in seed data does not match number of hashes in input data". -/
theorem ValidateSeedData_signature_count (C : Cipher) (sign : Signer C) (d : SeedTestData C)
    (input : InputTestData C) (keys : List C.SecKey) (i : Nat) (s : C.SecKey)
    (k : KeysTestData C) (p : C.PubKey) (m : Nat)
    (hg : C.MustGenerateDeterministicKeyPairs d.Seed d.Keys.len = some keys)
    (hl : keys.length = d.Keys.len)
    (hprev : validateKeys C sign d (some input) 0 (keys.take i) 0 = .ok m)
    (hs : keys.get? i = some s)
    (hk : d.Keys.toList.get? i = some k)
    (hpass : keyChecksPass C k s p)
    (hcount : k.Signatures.len ≠ input.Hashes.len) :
    ValidateSeedData C sign d (some input) =
      .error (.error
        "Number of signatures in seed data does not match number of hashes in input data") := by
  apply ValidateSeedData_error_at C sign d (some input) keys i s m _ hg hl hs hprev
  rw [validateKey_of_pass C sign d (some input) i s m k p hk hpass,
    validateKeySignatures_some, if_pos hcount]

/-- Instance: one key with zero signatures validated against an input vector
with one digest fails with the count error. -/
theorem ValidateSeedData_signature_count_witness :
    exampleOneKeyData.Keys.toList.map (fun k => k.Signatures.len) = [0] ∧
    (exampleOneDigest [5]).Hashes.len = 1 ∧
    ValidateSeedData (exampleCipher [5]) (exampleSigner [5]) exampleOneKeyData
        (some (exampleOneDigest [5])) =
      .error (.error
        "Number of signatures in seed data does not match number of hashes in input data") :=
  ⟨rfl, rfl, ValidateSeedData_signature_count (exampleCipher [5]) (exampleSigner [5])
    exampleOneKeyData (exampleOneDigest [5]) ([5] : List Nat) 0 (5 : Nat)
    (exampleKey [5] 5 (.mk [])) (6 : Nat) 0 rfl rfl rfl rfl rfl
    (exampleKey_pass [5] 5 (.mk []) (by decide)) (by decide)⟩

/-- Counterexample to C6 as stated: in `exampleNullSignatureData` both keys
pass the key-level checks and the first key whose signature count differs
from the digest count is key 1, yet validation against the one-digest input
fails at key 0 with "provided signature is null", not with the count error. -/
theorem ValidateSeedData_signature_count_counterexample :
    (exampleCipher [5, 6]).MustGenerateDeterministicKeyPairs exampleNullSignatureData.Seed
      exampleNullSignatureData.Keys.len = some ([5, 6] : List Nat) ∧
    exampleNullSignatureData.Keys.toList =
      [exampleKey [5, 6] 5 (.mk [0]), exampleKey [5, 6] 6 (.mk [])] ∧
    keyChecksPass (exampleCipher [5, 6]) (exampleKey [5, 6] 5 (.mk [0])) (5 : Nat) (6 : Nat) ∧
    keyChecksPass (exampleCipher [5, 6]) (exampleKey [5, 6] 6 (.mk [])) (6 : Nat) (7 : Nat) ∧
    (exampleKey [5, 6] 5 (.mk [0])).Signatures.len = (exampleOneDigest [5, 6]).Hashes.len ∧
    (exampleKey [5, 6] 6 (.mk [])).Signatures.len ≠ (exampleOneDigest [5, 6]).Hashes.len ∧
    ValidateSeedData (exampleCipher [5, 6]) (exampleSigner [5, 6]) exampleNullSignatureData
        (some (exampleOneDigest [5, 6])) = .error (.error "provided signature is null") ∧
    ValidateSeedData (exampleCipher [5, 6]) (exampleSigner [5, 6]) exampleNullSignatureData
        (some (exampleOneDigest [5, 6])) ≠
      .error (.error
        "Number of signatures in seed data does not match number of hashes in input data") :=
  ⟨rfl, rfl, exampleKey_pass [5, 6] 5 (.mk [0]) (by decide),
    exampleKey_pass [5, 6] 6 (.mk []) (by decide), rfl, by decide, rfl,
    by
      have h : ValidateSeedData (exampleCipher [5, 6]) (exampleSigner [5, 6])
          exampleNullSignatureData (some (exampleOneDigest [5, 6])) =
          .error (.error "provided signature is null") := rfl
      rw [h]
      intro hc
      injection hc with hc
      injection hc with hc
      exact absurd hc (by decide)⟩

theorem setPublic_spec {C : Cipher} (d : SeedTestData C) (i : Nat) (q : C.PubKey)
    (k : KeysTestData C) (hk : d.Keys.toList.get? i = some k) :
    (setPublic d i q).Seed = d.Seed ∧ (setPublic d i q).Keys.len = d.Keys.len ∧
    (setPublic d i q).Keys.toList.get? i =
      some { Address := k.Address, BitcoinAddress := k.BitcoinAddress, Secret := k.Secret,
             Public := q, Signatures := k.Signatures } ∧
    ∀ j, j ≠ i → (setPublic d i q).Keys.toList.get? j = d.Keys.toList.get? j := by
  have hi : i < d.Keys.toList.length := (List.get?_eq_some.1 hk).1
  unfold setPublic
  rw [hk]
  refine ⟨rfl, ?_, ?_, ?_⟩
  · simp only [Slice.len, Slice.toList_mk, List.length_set]
  · rw [Slice.toList_mk, List.get?_eq_getElem?, List.getElem?_set]
    simp [hi]
  · intro j hj
    rw [Slice.toList_mk, List.get?_eq_getElem?, List.get?_eq_getElem?,
      List.getElem?_set_ne (Ne.symm hj)]

/-- C8, public-key mutation: when `ValidateSeedData d in` returns nil and the
stored public key of key `i` is replaced by any different value `q`,
validation of the mutated fixture fails with "derived public key does not
match provided public key"; the loop accepts all keys below `i` and the
failing check is that of key `i`. -/
theorem ValidateSeedData_public_mutation (C : Cipher) (sign : Signer C) (d : SeedTestData C)
    (inp : Option (InputTestData C)) (i : Nat) (k : KeysTestData C) (q : C.PubKey)
    (hv : ValidateSeedData C sign d inp = .ok ())
    (hk : d.Keys.toList.get? i = some k) (hq : q ≠ k.Public) :
    ValidateSeedData C sign (setPublic d i q) inp =
      .error (.error "derived public key does not match provided public key") ∧
    ∃ keys s m,
      C.MustGenerateDeterministicKeyPairs (setPublic d i q).Seed (setPublic d i q).Keys.len =
        some keys ∧
      keys.get? i = some s ∧
      validateKeys C sign (setPublic d i q) inp 0 (keys.take i) 0 = .ok m ∧
      validateKey C sign (setPublic d i q) inp i s m =
        .error (.error "derived public key does not match provided public key") := by
  obtain ⟨hseed, hlen, hget, hother⟩ := setPublic_spec d i q k hk
  obtain ⟨keys, m0, hg, hl, hkeys⟩ := (ValidateSeedData_ok_iff C sign d inp).1 hv
  have hi : i < keys.length := by
    rw [hl]
    exact (List.get?_eq_some.1 hk).1
  have hs : keys.get? i = some (keys.get ⟨i, hi⟩) := List.get?_eq_get hi
  obtain ⟨a, b, hpre, hkey⟩ := validateKeys_ok_at C sign d inp keys i _ m0 hs hkeys
  obtain ⟨k0, p, hk0, hpass, _⟩ := validateKey_ok_imp C sign d inp i _ a b hkey
  rw [hk] at hk0
  injection hk0 with hk0
  subst hk0
  obtain ⟨h1, h2, h3, h4, h5, _⟩ := hpass
  have hg' : C.MustGenerateDeterministicKeyPairs (setPublic d i q).Seed
      (setPublic d i q).Keys.len = some keys := by
    rw [hseed, hlen]; exact hg
  have hpre' : validateKeys C sign (setPublic d i q) inp 0 (keys.take i) 0 = .ok a := by
    rw [← hpre]
    apply validateKeys_congr
    intro t ht
    rw [Nat.zero_add]
    apply hother
    have : t < i := by
      have := List.length_take_le i keys
      omega
    omega
  have hkey' : validateKey C sign (setPublic d i q) inp i (keys.get ⟨i, hi⟩) a =
      .error (.error "derived public key does not match provided public key") := by
    unfold validateKey
    rw [if_neg h1, hget]
    simp only []
    rw [if_neg (not_not.mpr h2), h3]
    simp only []
    rw [if_neg h4, if_pos (by rw [← h5]; exact hq)]
  exact ⟨ValidateSeedData_error_at C sign (setPublic d i q) inp keys i _ a _ hg'
    (by rw [hlen]; exact hl) hs hpre' hkey', keys, _, a, hg', hs, hpre', hkey'⟩

/-- Instance at `exampleSignedData` and `exampleInput`: the stored public key
`7` of key 1 is replaced by `99`. -/
theorem ValidateSeedData_public_mutation_witness :
    ValidateSeedData (exampleCipher [5, 6]) (exampleSigner [5, 6]) exampleSignedData
      (some exampleInput) = .ok () ∧
    ValidateSeedData (exampleCipher [5, 6]) (exampleSigner [5, 6])
        (setPublic exampleSignedData 1 (99 : Nat)) (some exampleInput) =
      .error (.error "derived public key does not match provided public key") :=
  ⟨rfl, (ValidateSeedData_public_mutation (exampleCipher [5, 6]) (exampleSigner [5, 6])
    exampleSignedData (some exampleInput) 1 (exampleKey [5, 6] 6 (.mk [17, 27])) (99 : Nat)
    rfl rfl (by decide : (99 : Nat) ≠ 7)).1⟩

/-! ## What the returned error tells -/

theorem validateSignature_message (C : Cipher) (sign : Signer C) (s : C.SecKey) (p : C.PubKey)
    (addr1 : C.Address) (sig : C.Sig) (h : C.SHA256) (n : Nat) (msg : String)
    (hv : validateSignature C sign s p addr1 sig h n = .error (.error msg)) :
    isCheckMessage C msg := by
  unfold validateSignature at hv
  split at hv
  · cases hv; exact .inl (by decide)
  split at hv
  · rename_i e _
    cases hv; exact .inr ⟨e, by simp [wrappedMessages]⟩
  split at hv
  · rename_i e _
    cases hv; exact .inr ⟨e, by simp [wrappedMessages]⟩
  split at hv
  · rename_i e _
    cases hv; exact .inr ⟨e, by simp [wrappedMessages]⟩
  split at hv
  · rename_i e _
    cases hv; exact .inr ⟨e, by simp [wrappedMessages]⟩
  split at hv
  · cases hv; exact .inl (by decide)
  split at hv
  · cases hv
  split at hv
  · cases hv; exact .inl (by decide)
  cases hv

theorem validateSignatures_message (C : Cipher) (sign : Signer C) (s : C.SecKey) (p : C.PubKey)
    (addr1 : C.Address) (sigs : Slice C.Sig) (hs : List C.SHA256) (j n : Nat) (msg : String)
    (hv : validateSignatures C sign s p addr1 sigs j hs n = .error (.error msg)) :
    isCheckMessage C msg := by
  induction hs generalizing j n with
  | nil => unfold validateSignatures at hv; cases hv
  | cons h rest ih =>
    unfold validateSignatures at hv
    cases hg : sigs.toList.get? j with
    | none => rw [hg] at hv; cases hv
    | some sig =>
      rw [hg] at hv
      simp only [] at hv
      cases hk : validateSignature C sign s p addr1 sig h n with
      | error e =>
        rw [hk] at hv
        injection hv with hv
        subst hv
        exact validateSignature_message C sign s p addr1 sig h n msg hk
      | ok m =>
        rw [hk] at hv
        exact ih (j + 1) m hv

theorem validateKeySignatures_message (C : Cipher) (sign : Signer C)
    (inp : Option (InputTestData C)) (k : KeysTestData C) (s : C.SecKey) (p : C.PubKey)
    (n : Nat) (msg : String)
    (hv : validateKeySignatures C sign inp k s p n = .error (.error msg)) :
    isCheckMessage C msg := by
  cases inp with
  | none =>
    rw [validateKeySignatures_none] at hv
    by_cases hz : k.Signatures.len ≠ 0
    · rw [if_pos hz] at hv; cases hv; exact .inl (by decide)
    · rw [if_neg hz] at hv; cases hv
  | some input =>
    rw [validateKeySignatures_some] at hv
    by_cases hc : k.Signatures.len ≠ input.Hashes.len
    · rw [if_pos hc] at hv; cases hv; exact .inl (by decide)
    · rw [if_neg hc] at hv
      exact validateSignatures_message C sign s p _ k.Signatures _ 0 n msg hv

theorem validateKey_message (C : Cipher) (sign : Signer C) (d : SeedTestData C)
    (inp : Option (InputTestData C)) (i : Nat) (s : C.SecKey) (n : Nat) (msg : String)
    (hv : validateKey C sign d inp i s n = .error (.error msg)) :
    isCheckMessage C msg := by
  unfold validateKey at hv
  by_cases c1 : s = C.nullSecKey
  · rw [if_pos c1] at hv; cases hv; exact .inl (by decide)
  rw [if_neg c1] at hv
  cases hk : d.Keys.toList.get? i with
  | none => rw [hk] at hv; cases hv
  | some k =>
  rw [hk] at hv
  simp only [] at hv
  by_cases c2 : k.Secret ≠ s
  · rw [if_pos c2] at hv; cases hv; exact .inl (by decide)
  rw [if_neg c2] at hv
  cases hp : C.MustPubKeyFromSecKey s with
  | none => rw [hp] at hv; cases hv
  | some p =>
  rw [hp] at hv
  simp only [] at hv
  by_cases c3 : p = C.nullPubKey
  · rw [if_pos c3] at hv; cases hv; exact .inl (by decide)
  rw [if_neg c3] at hv
  by_cases c4 : k.Public ≠ p
  · rw [if_pos c4] at hv; cases hv; exact .inl (by decide)
  rw [if_neg c4] at hv
  by_cases c5 : C.AddressFromPubKey p = C.nullAddress
  · rw [if_pos c5] at hv; cases hv; exact .inl (by decide)
  rw [if_neg c5] at hv
  by_cases c6 : k.Address ≠ C.AddressFromPubKey p
  · rw [if_pos c6] at hv; cases hv; exact .inl (by decide)
  rw [if_neg c6] at hv
  cases ha2 : C.MustAddressFromSecKey s with
  | none => rw [ha2] at hv; cases hv
  | some addr2 =>
  rw [ha2] at hv
  simp only [] at hv
  by_cases c7 : C.AddressFromPubKey p ≠ addr2
  · rw [if_pos c7] at hv; cases hv; exact .inl (by decide)
  rw [if_neg c7] at hv
  by_cases c8 : C.BitcoinAddressFromPubKey p = C.nullBitcoinAddress
  · rw [if_pos c8] at hv; cases hv; exact .inl (by decide)
  rw [if_neg c8] at hv
  by_cases c9 : k.BitcoinAddress ≠ C.BitcoinAddressFromPubKey p
  · rw [if_pos c9] at hv; cases hv; exact .inl (by decide)
  rw [if_neg c9] at hv
  cases hb2 : C.MustBitcoinAddressFromSecKey s with
  | none => rw [hb2] at hv; cases hv
  | some b2 =>
  rw [hb2] at hv
  simp only [] at hv
  by_cases c10 : C.BitcoinAddressFromPubKey p ≠ b2
  · rw [if_pos c10] at hv; cases hv; exact .inl (by decide)
  rw [if_neg c10] at hv
  by_cases c11 : C.VerifySeckey s ≠ 1
  · rw [if_pos c11] at hv; cases hv; exact .inl (by decide)
  rw [if_neg c11] at hv
  by_cases c12 : C.VerifyPubkey p ≠ 1
  · rw [if_pos c12] at hv; cases hv; exact .inl (by decide)
  rw [if_neg c12] at hv
  exact validateKeySignatures_message C sign inp k s p n msg hv

theorem validateKeys_message (C : Cipher) (sign : Signer C) (d : SeedTestData C)
    (inp : Option (InputTestData C)) (keys : List C.SecKey) (i n : Nat) (msg : String)
    (hv : validateKeys C sign d inp i keys n = .error (.error msg)) :
    isCheckMessage C msg := by
  induction keys generalizing i n with
  | nil => unfold validateKeys at hv; cases hv
  | cons s0 rest ih =>
    unfold validateKeys at hv
    cases hk : validateKey C sign d inp i s0 n with
    | error e =>
      rw [hk] at hv
      injection hv with hv
      subst hv
      exact validateKey_message C sign d inp i s0 n msg hk
    | ok m =>
      rw [hk] at hv
      exact ih (i + 1) m hv

/-- Counterexample to C10 as stated: `exampleBadPublic0` fails the public-key
comparison at key 0, `exampleBadPublic1` passes key 0 and fails the same
comparison at key 1, and the two runs return the same error, which therefore
does not determine the key index. -/
theorem ValidateSeedData_error_context_counterexample :
    validateKey (exampleCipher [5, 6]) (exampleSigner [5, 6]) exampleBadPublic0 none 0
        (5 : Nat) 0 =
      .error (.error "derived public key does not match provided public key") ∧
    validateKey (exampleCipher [5, 6]) (exampleSigner [5, 6]) exampleBadPublic1 none 0
        (5 : Nat) 0 = .ok 0 ∧
    validateKey (exampleCipher [5, 6]) (exampleSigner [5, 6]) exampleBadPublic1 none 1
        (6 : Nat) 0 =
      .error (.error "derived public key does not match provided public key") ∧
    ValidateSeedData (exampleCipher [5, 6]) (exampleSigner [5, 6]) exampleBadPublic0 none =
      .error (.error "derived public key does not match provided public key") ∧
    ValidateSeedData (exampleCipher [5, 6]) (exampleSigner [5, 6]) exampleBadPublic1 none =
      ValidateSeedData (exampleCipher [5, 6]) (exampleSigner [5, 6]) exampleBadPublic0 none :=
  ⟨rfl, rfl, rfl, rfl, rfl⟩

/-! ## Input vector round trip -/

theorem decodeHashes_map (C : Cipher) (hHash : ∀ x, C.SHA256FromHex (C.SHA256Hex x) = .ok x)
    (l : List C.SHA256) : decodeHashes C (l.map C.SHA256Hex) = .ok l := by
  induction l with
  | nil => rfl
  | cons x rest ih => simp [decodeHashes, hHash, ih]

/-- C11, input vector round trip: when `cipher.SHA256FromHex` decodes what
`SHA256.Hex` encodes, `InputTestDataFromJSON (d.ToJSON)` succeeds for every
`d` and returns as many digests as `d` holds, equal to those of `d` position
by position. -/
theorem InputTestData_round_trip (C : Cipher)
    (hHash : ∀ x, C.SHA256FromHex (C.SHA256Hex x) = .ok x) (d : InputTestData C) :
    ∃ r, InputTestDataFromJSON C d.ToJSON = .ok r ∧
      r.Hashes.len = d.Hashes.len ∧
      ∀ i, r.Hashes.toList.get? i = d.Hashes.toList.get? i := by
  refine ⟨{ Hashes := .mk d.Hashes.toList }, ?_, rfl, fun _ => rfl⟩
  simp only [InputTestDataFromJSON, InputTestData.ToJSON, Slice.toList_mk,
    decodeHashes_map C hHash]

/-- Instance of the input round trip at `exampleInput`. -/
theorem InputTestData_round_trip_witness :
    ∃ r, InputTestDataFromJSON (exampleCipher [5, 6]) exampleInput.ToJSON = .ok r ∧
      r.Hashes.len = exampleInput.Hashes.len ∧
      ∀ i, r.Hashes.toList.get? i = exampleInput.Hashes.toList.get? i :=
  InputTestData_round_trip (exampleCipher [5, 6])
    (fun a => congrArg Except.ok (unary_length a)) exampleInput

/-! ## Independence from the bytes of fresh signatures -/

theorem validateSignature_no_index (C : Cipher) (sign : Signer C) (s : C.SecKey) (p : C.PubKey)
    (addr1 : C.Address) (sig : C.Sig) (h : C.SHA256) (n : Nat) :
    validateSignature C sign s p addr1 sig h n ≠ .error .indexOutOfRange := by
  intro hv
  unfold validateSignature at hv
  split at hv
  · cases hv
  split at hv
  · cases hv
  split at hv
  · cases hv
  split at hv
  · cases hv
  split at hv
  · cases hv
  split at hv
  · cases hv
  split at hv
  · cases hv
  split at hv
  · cases hv
  cases hv

theorem validateSignatures_no_index (C : Cipher) (sign : Signer C) (s : C.SecKey) (p : C.PubKey)
    (addr1 : C.Address) (sigs : Slice C.Sig) (hs : List C.SHA256) (j n : Nat)
    (hb : j + hs.length ≤ sigs.len) :
    validateSignatures C sign s p addr1 sigs j hs n ≠ .error .indexOutOfRange := by
  induction hs generalizing j n with
  | nil => intro hv; unfold validateSignatures at hv; cases hv
  | cons h rest ih =>
    intro hv
    unfold validateSignatures at hv
    cases hg : sigs.toList.get? j with
    | none =>
      rw [List.get?_eq_none] at hg
      simp only [List.length_cons, Slice.len] at hb
      omega
    | some sig =>
      rw [hg] at hv
      simp only [] at hv
      cases hk : validateSignature C sign s p addr1 sig h n with
      | error e =>
        rw [hk] at hv
        injection hv with hv
        subst hv
        exact validateSignature_no_index C sign s p addr1 sig h n hk
      | ok m =>
        rw [hk] at hv
        refine ih (j + 1) m ?_ hv
        simp only [List.length_cons] at hb
        omega

theorem validateKeySignatures_no_index (C : Cipher) (sign : Signer C)
    (inp : Option (InputTestData C)) (k : KeysTestData C) (s : C.SecKey) (p : C.PubKey)
    (n : Nat) :
    validateKeySignatures C sign inp k s p n ≠ .error .indexOutOfRange := by
  intro hv
  cases inp with
  | none =>
    rw [validateKeySignatures_none] at hv
    by_cases hz : k.Signatures.len ≠ 0
    · rw [if_pos hz] at hv; cases hv
    · rw [if_neg hz] at hv; cases hv
  | some input =>
    rw [validateKeySignatures_some] at hv
    by_cases hc : k.Signatures.len ≠ input.Hashes.len
    · rw [if_pos hc] at hv; cases hv
    · rw [if_neg hc] at hv
      refine validateSignatures_no_index C sign s p _ k.Signatures _ 0 n ?_ hv
      have := not_not.mp hc
      simp only [Slice.len] at this ⊢
      omega

theorem validateKey_no_index (C : Cipher) (sign : Signer C) (d : SeedTestData C)
    (inp : Option (InputTestData C)) (i : Nat) (s : C.SecKey) (n : Nat)
    (hi : i < d.Keys.toList.length) :
    validateKey C sign d inp i s n ≠ .error .indexOutOfRange := by
  intro hv
  unfold validateKey at hv
  by_cases c1 : s = C.nullSecKey
  · rw [if_pos c1] at hv; cases hv
  rw [if_neg c1] at hv
  cases hk : d.Keys.toList.get? i with
  | none =>
    rw [List.get?_eq_none] at hk
    omega
  | some k =>
  rw [hk] at hv
  simp only [] at hv
  by_cases c2 : k.Secret ≠ s
  · rw [if_pos c2] at hv; cases hv
  rw [if_neg c2] at hv
  cases hp : C.MustPubKeyFromSecKey s with
  | none => rw [hp] at hv; cases hv
  | some p =>
  rw [hp] at hv
  simp only [] at hv
  by_cases c3 : p = C.nullPubKey
  · rw [if_pos c3] at hv; cases hv
  rw [if_neg c3] at hv
  by_cases c4 : k.Public ≠ p
  · rw [if_pos c4] at hv; cases hv
  rw [if_neg c4] at hv
  by_cases c5 : C.AddressFromPubKey p = C.nullAddress
  · rw [if_pos c5] at hv; cases hv
  rw [if_neg c5] at hv
  by_cases c6 : k.Address ≠ C.AddressFromPubKey p
  · rw [if_pos c6] at hv; cases hv
  rw [if_neg c6] at hv
  cases ha2 : C.MustAddressFromSecKey s with
  | none => rw [ha2] at hv; cases hv
  | some addr2 =>
  rw [ha2] at hv
  simp only [] at hv
  by_cases c7 : C.AddressFromPubKey p ≠ addr2
  · rw [if_pos c7] at hv; cases hv
  rw [if_neg c7] at hv
  by_cases c8 : C.BitcoinAddressFromPubKey p = C.nullBitcoinAddress
  · rw [if_pos c8] at hv; cases hv
  rw [if_neg c8] at hv
  by_cases c9 : k.BitcoinAddress ≠ C.BitcoinAddressFromPubKey p
  · rw [if_pos c9] at hv; cases hv
  rw [if_neg c9] at hv
  cases hb2 : C.MustBitcoinAddressFromSecKey s with
  | none => rw [hb2] at hv; cases hv
  | some b2 =>
  rw [hb2] at hv
  simp only [] at hv
  by_cases c10 : C.BitcoinAddressFromPubKey p ≠ b2
  · rw [if_pos c10] at hv; cases hv
  rw [if_neg c10] at hv
  by_cases c11 : C.VerifySeckey s ≠ 1
  · rw [if_pos c11] at hv; cases hv
  rw [if_neg c11] at hv
  by_cases c12 : C.VerifyPubkey p ≠ 1
  · rw [if_pos c12] at hv; cases hv
  rw [if_neg c12] at hv
  exact validateKeySignatures_no_index C sign inp k s p n hv

theorem validateKeys_no_index (C : Cipher) (sign : Signer C) (d : SeedTestData C)
    (inp : Option (InputTestData C)) (keys : List C.SecKey) (i n : Nat)
    (hb : i + keys.length ≤ d.Keys.len) :
    validateKeys C sign d inp i keys n ≠ .error .indexOutOfRange := by
  induction keys generalizing i n with
  | nil => intro hv; unfold validateKeys at hv; cases hv
  | cons s0 rest ih =>
    intro hv
    unfold validateKeys at hv
    simp only [List.length_cons, Slice.len] at hb
    cases hk : validateKey C sign d inp i s0 n with
    | error e =>
      rw [hk] at hv
      injection hv with hv
      subst hv
      exact validateKey_no_index C sign d inp i s0 n (by omega) hk
    | ok m =>
      rw [hk] at hv
      refine ih (i + 1) m ?_ hv
      simp only [Slice.len]
      omega

/-- C16, indexing stays in range: no run of `ValidateSeedData` ends in the
index-out-of-range panic. `seedData.Keys[i]` is read only for `i` below
`len(seedData.Keys)`, because the loop runs over exactly that many generated
secrets, and `Signatures[j]` only for `j` below the signature count, because
the count was compared with the number of digests; a generator that returns
another number of secrets, or unequal counts, end the run with an error
before any such access. -/
theorem ValidateSeedData_index_in_range (C : Cipher) (sign : Signer C) (d : SeedTestData C)
    (inp : Option (InputTestData C)) :
    ValidateSeedData C sign d inp ≠ .error .indexOutOfRange := by
  intro hv
  unfold ValidateSeedData at hv
  cases hg : C.MustGenerateDeterministicKeyPairs d.Seed d.Keys.len with
  | none => rw [hg] at hv; cases hv
  | some keys =>
    rw [hg] at hv
    simp only [] at hv
    by_cases hl : d.Keys.len ≠ keys.length
    · rw [if_pos hl] at hv; cases hv
    rw [if_neg hl] at hv
    cases hk : validateKeys C sign d inp 0 keys 0 with
    | error e =>
      rw [hk] at hv
      injection hv with hv
      subst hv
      exact validateKeys_no_index C sign d inp keys 0 0
        (by rw [not_not.mp hl]; omega) hk
    | ok m => rw [hk] at hv; cases hv

/-! ## Failures of decoding -/

theorem decodeEach_error_iff {α β ε : Type} (f : α → Except ε β) (l : List α) :
    (∃ e, decodeEach f l = .error e) ↔ ∃ x ∈ l, ∃ e, f x = .error e := by
  induction l with
  | nil => simp [decodeEach]
  | cons x rest ih =>
    unfold decodeEach
    cases hx : f x with
    | error e =>
      simp only [List.mem_cons]
      exact ⟨fun _ => ⟨x, Or.inl rfl, e, hx⟩, fun _ => ⟨e, rfl⟩⟩
    | ok v =>
      simp only [List.mem_cons]
      cases hr : decodeEach f rest with
      | error e =>
        simp only []
        have h2 := ih.1 ⟨e, hr⟩
        obtain ⟨y, hy, e2, he2⟩ := h2
        exact ⟨fun _ => ⟨y, Or.inr hy, e2, he2⟩, fun _ => ⟨e, rfl⟩⟩
      | ok vs =>
        simp only []
        constructor
        · rintro ⟨e, he⟩
          cases he
        · rintro ⟨y, hy, e, he⟩
          rcases hy with rfl | hy
          · rw [hx] at he; cases he
          · obtain ⟨e3, he3⟩ := ih.2 ⟨y, hy, e, he⟩
            rw [hr] at he3; cases he3

theorem decodeEach_cons_ok {α β ε : Type} (f : α → Except ε β) (y : α) (v : β) (l : List α)
    (hv : f y = .ok v) :
    decodeEach f (y :: l) =
      match decodeEach f l with
      | .error err => .error err
      | .ok vs => .ok (v :: vs) := by
  simp only [decodeEach, hv]

theorem decodeEach_first_error {α β ε : Type} (f : α → Except ε β) (pre post : List α)
    (x : α) (e : ε) (hpre : ∀ y ∈ pre, ∃ v, f y = .ok v) (hx : f x = .error e) :
    decodeEach f (pre ++ x :: post) = .error e := by
  induction pre with
  | nil => simp [decodeEach, hx]
  | cons y rest ih =>
    obtain ⟨v, hv⟩ := hpre y (List.mem_cons_self _ _)
    have h2 := ih (fun z hz => hpre z (List.mem_cons_of_mem _ hz))
    rw [List.cons_append, decodeEach_cons_ok f y v _ hv, h2]

theorem decodeHashes_eq (C : Cipher) (l : List String) :
    decodeHashes C l = decodeEach (fun h => liftCipher (C.SHA256FromHex h)) l := by
  induction l with
  | nil => rfl
  | cons x rest ih =>
    cases h1 : C.SHA256FromHex x with
    | error e => simp [decodeHashes, decodeEach, liftCipher, h1]
    | ok v =>
      rw [decodeEach_cons_ok _ x v rest (by simp [liftCipher, h1])]
      simp only [decodeHashes, h1]
      rw [ih]
      cases decodeEach (fun h => liftCipher (C.SHA256FromHex h)) rest <;> rfl

theorem decodeSigs_eq (C : Cipher) (l : List String) :
    decodeSigs C l = decodeEach (fun h => liftCipher (C.SigFromHex h)) l := by
  induction l with
  | nil => rfl
  | cons x rest ih =>
    cases h1 : C.SigFromHex x with
    | error e => simp [decodeSigs, decodeEach, liftCipher, h1]
    | ok v =>
      rw [decodeEach_cons_ok _ x v rest (by simp [liftCipher, h1])]
      simp only [decodeSigs, h1]
      rw [ih]
      cases decodeEach (fun h => liftCipher (C.SigFromHex h)) rest <;> rfl

theorem decodeKeys_eq (C : Cipher) (l : List KeysTestDataJSON) :
    decodeKeys C l = decodeEach (KeysTestDataFromJSON C) l := by
  induction l with
  | nil => rfl
  | cons x rest ih =>
    cases h1 : KeysTestDataFromJSON C x with
    | error e => simp [decodeKeys, decodeEach, h1]
    | ok v =>
      rw [decodeEach_cons_ok _ x v rest h1]
      simp only [decodeKeys, h1]
      rw [ih]
      cases decodeEach (KeysTestDataFromJSON C) rest <;> rfl

theorem liftCipher_error_iff {C : Cipher} {β : Type} (r : Except C.Error β) :
    (∃ e, liftCipher r = .error e) ↔ ∃ e, r = .error e := by
  cases r with
  | error e => exact ⟨fun _ => ⟨e, rfl⟩, fun _ => ⟨.cipher e, rfl⟩⟩
  | ok v =>
    constructor
    · rintro ⟨e, he⟩; cases he
    · rintro ⟨e, he⟩; cases he

theorem KeysTestDataFromJSON_of_fields (C : Cipher) (d : KeysTestDataJSON)
    (a : C.Address) (b : C.BitcoinAddress) (sk : C.SecKey) (pk : C.PubKey)
    (ha : C.DecodeBase58Address d.Address = .ok a)
    (hb : C.DecodeBase58BitcoinAddress d.BitcoinAddress = .ok b)
    (hs : C.SecKeyFromHex d.Secret = .ok sk)
    (hp : C.PubKeyFromHex d.Public = .ok pk) :
    KeysTestDataFromJSON C d =
      match d.Signatures with
      | .nil =>
        .ok { Address := a, BitcoinAddress := b, Secret := sk, Public := pk, Signatures := .nil }
      | .mk strs =>
        match decodeEach (fun h => liftCipher (C.SigFromHex h)) strs with
        | .error err => .error err
        | .ok sigs =>
          .ok { Address := a, BitcoinAddress := b, Secret := sk, Public := pk,
                Signatures := .mk sigs } := by
  unfold KeysTestDataFromJSON
  rw [ha, hb, hs, hp]
  simp only []
  cases d.Signatures with
  | nil => rfl
  | mk strs =>
    simp only [decodeSigs_eq]

theorem KeysTestDataFromJSON_sigs_error_iff (C : Cipher) (d : KeysTestDataJSON)
    (a : C.Address) (b : C.BitcoinAddress) (sk : C.SecKey) (pk : C.PubKey)
    (ha : C.DecodeBase58Address d.Address = .ok a)
    (hb : C.DecodeBase58BitcoinAddress d.BitcoinAddress = .ok b)
    (hs : C.SecKeyFromHex d.Secret = .ok sk)
    (hp : C.PubKeyFromHex d.Public = .ok pk) :
    (∃ e, KeysTestDataFromJSON C d = .error e) ↔
      ∃ x ∈ d.Signatures.toList, ∃ e, C.SigFromHex x = .error e := by
  rw [KeysTestDataFromJSON_of_fields C d a b sk pk ha hb hs hp]
  cases hsig : d.Signatures with
  | nil =>
    simp only [Slice.toList, List.not_mem_nil, false_and, exists_false, iff_false]
    rintro ⟨e, he⟩
    cases he
  | mk strs =>
    simp only [Slice.toList_mk]
    have hiff := decodeEach_error_iff (fun h => liftCipher (C.SigFromHex h)) strs
    constructor
    · rintro ⟨e, he⟩
      cases hd : decodeEach (fun h => liftCipher (C.SigFromHex h)) strs with
      | error e2 =>
        obtain ⟨x, hx, e3, he3⟩ := hiff.1 ⟨e2, hd⟩
        exact ⟨x, hx, (liftCipher_error_iff _).1 ⟨e3, he3⟩⟩
      | ok sigs => rw [hd] at he; cases he
    · rintro ⟨x, hx, e, he⟩
      obtain ⟨e2, he2⟩ := hiff.2 ⟨x, hx, (liftCipher_error_iff _).2 ⟨e, he⟩⟩
      rw [he2]
      exact ⟨e2, rfl⟩

theorem KeysTestDataFromJSON_sig_first (C : Cipher) (d : KeysTestDataJSON)
    (a : C.Address) (b : C.BitcoinAddress) (sk : C.SecKey) (pk : C.PubKey)
    (ha : C.DecodeBase58Address d.Address = .ok a)
    (hb : C.DecodeBase58BitcoinAddress d.BitcoinAddress = .ok b)
    (hs : C.SecKeyFromHex d.Secret = .ok sk)
    (hp : C.PubKeyFromHex d.Public = .ok pk)
    (pre post : List String) (x : String) (e : C.Error)
    (hsplit : d.Signatures.toList = pre ++ x :: post)
    (hpre : ∀ y ∈ pre, ∃ v, C.SigFromHex y = .ok v)
    (hx : C.SigFromHex x = .error e) :
    KeysTestDataFromJSON C d = .error (.cipher e) := by
  rw [KeysTestDataFromJSON_of_fields C d a b sk pk ha hb hs hp]
  cases hsig : d.Signatures with
  | nil =>
    rw [hsig] at hsplit
    simp [Slice.toList] at hsplit
  | mk strs =>
    rw [hsig, Slice.toList_mk] at hsplit
    simp only []
    rw [hsplit, decodeEach_first_error (fun h => liftCipher (C.SigFromHex h)) pre post x
      (.cipher e)
      (fun y hy => by
        obtain ⟨v, hv⟩ := hpre y hy
        exact ⟨v, by simp [liftCipher, hv]⟩)
      (by simp [liftCipher, hx])]

theorem SeedTestDataFromJSON_of_seed (C : Cipher) (d : SeedTestDataJSON) (seed : List Byte)
    (hseed : DecodeString d.Seed = some seed) :
    SeedTestDataFromJSON C d =
      match decodeEach (KeysTestDataFromJSON C) d.Keys.toList with
      | .error err => .error err
      | .ok keys => .ok { Seed := .mk seed, Keys := .mk keys } := by
  unfold SeedTestDataFromJSON
  rw [hseed]
  simp only [decodeKeys_eq]

/-- C15, decoding reports failure explicitly and wholly. `KeysTestDataFromJSON`
returns an error exactly when the address, the bitcoin address, the secret,
the public key or some signature fails to decode, and the error is that of
the first failing field in this order (signatures in list order).
`SeedTestDataFromJSON` returns an error exactly when the seed is not valid
base64 or some key fails to decode; the seed is decoded first, and with a
valid seed the error is that of the lowest-indexed failing key.
`InputTestDataFromJSON` returns an error exactly when some hash string fails
to decode. A result is either an error or a value, never both. -/
theorem FromJSON_failure (C : Cipher) :
    (∀ d : KeysTestDataJSON,
      ((∃ e, KeysTestDataFromJSON C d = .error e) ↔
        (∃ e, C.DecodeBase58Address d.Address = .error e) ∨
        (∃ e, C.DecodeBase58BitcoinAddress d.BitcoinAddress = .error e) ∨
        (∃ e, C.SecKeyFromHex d.Secret = .error e) ∨
        (∃ e, C.PubKeyFromHex d.Public = .error e) ∨
        (∃ x ∈ d.Signatures.toList, ∃ e, C.SigFromHex x = .error e)) ∧
      (∀ e, C.DecodeBase58Address d.Address = .error e →
        KeysTestDataFromJSON C d = .error (.cipher e)) ∧
      (∀ a e, C.DecodeBase58Address d.Address = .ok a →
        C.DecodeBase58BitcoinAddress d.BitcoinAddress = .error e →
        KeysTestDataFromJSON C d = .error (.cipher e)) ∧
      (∀ a b e, C.DecodeBase58Address d.Address = .ok a →
        C.DecodeBase58BitcoinAddress d.BitcoinAddress = .ok b →
        C.SecKeyFromHex d.Secret = .error e →
        KeysTestDataFromJSON C d = .error (.cipher e)) ∧
      (∀ a b sk e, C.DecodeBase58Address d.Address = .ok a →
        C.DecodeBase58BitcoinAddress d.BitcoinAddress = .ok b →
        C.SecKeyFromHex d.Secret = .ok sk →
        C.PubKeyFromHex d.Public = .error e →
        KeysTestDataFromJSON C d = .error (.cipher e)) ∧
      (∀ a b sk pk pre x post e, C.DecodeBase58Address d.Address = .ok a →
        C.DecodeBase58BitcoinAddress d.BitcoinAddress = .ok b →
        C.SecKeyFromHex d.Secret = .ok sk →
        C.PubKeyFromHex d.Public = .ok pk →
        d.Signatures.toList = pre ++ x :: post →
        (∀ y ∈ pre, ∃ v, C.SigFromHex y = .ok v) →
        C.SigFromHex x = .error e →
        KeysTestDataFromJSON C d = .error (.cipher e))) ∧
    (∀ d : SeedTestDataJSON,
      ((∃ e, SeedTestDataFromJSON C d = .error e) ↔
        DecodeString d.Seed = none ∨
        ∃ kj ∈ d.Keys.toList, ∃ e, KeysTestDataFromJSON C kj = .error e) ∧
      (DecodeString d.Seed = none → SeedTestDataFromJSON C d = .error .corruptInput) ∧
      (∀ seed pre kj post e, DecodeString d.Seed = some seed →
        d.Keys.toList = pre ++ kj :: post →
        (∀ y ∈ pre, ∃ k, KeysTestDataFromJSON C y = .ok k) →
        KeysTestDataFromJSON C kj = .error e →
        SeedTestDataFromJSON C d = .error e)) ∧
    (∀ d : InputTestDataJSON,
      ((∃ e, InputTestDataFromJSON C d = .error e) ↔
        ∃ h ∈ d.Hashes.toList, ∃ e, C.SHA256FromHex h = .error e)) := by
  refine ⟨fun d => ?_, fun d => ?_, fun d => ?_⟩
  · have f1 : ∀ e, C.DecodeBase58Address d.Address = .error e →
        KeysTestDataFromJSON C d = .error (.cipher e) := by
      intro e he
      simp only [KeysTestDataFromJSON, he]
    have f2 : ∀ a e, C.DecodeBase58Address d.Address = .ok a →
        C.DecodeBase58BitcoinAddress d.BitcoinAddress = .error e →
        KeysTestDataFromJSON C d = .error (.cipher e) := by
      intro a e ha he
      simp only [KeysTestDataFromJSON, ha, he]
    have f3 : ∀ a b e, C.DecodeBase58Address d.Address = .ok a →
        C.DecodeBase58BitcoinAddress d.BitcoinAddress = .ok b →
        C.SecKeyFromHex d.Secret = .error e →
        KeysTestDataFromJSON C d = .error (.cipher e) := by
      intro a b e ha hb he
      simp only [KeysTestDataFromJSON, ha, hb, he]
    have f4 : ∀ a b sk e, C.DecodeBase58Address d.Address = .ok a →
        C.DecodeBase58BitcoinAddress d.BitcoinAddress = .ok b →
        C.SecKeyFromHex d.Secret = .ok sk →
        C.PubKeyFromHex d.Public = .error e →
        KeysTestDataFromJSON C d = .error (.cipher e) := by
      intro a b sk e ha hb hs he
      simp only [KeysTestDataFromJSON, ha, hb, hs, he]
    refine ⟨?_, f1, f2, f3, f4, ?_⟩
    · cases ha : C.DecodeBase58Address d.Address with
      | error e => exact ⟨fun _ => Or.inl ⟨e, rfl⟩, fun _ => ⟨_, f1 e ha⟩⟩
      | ok a =>
      cases hb : C.DecodeBase58BitcoinAddress d.BitcoinAddress with
      | error e => exact ⟨fun _ => Or.inr (Or.inl ⟨e, rfl⟩), fun _ => ⟨_, f2 a e ha hb⟩⟩
      | ok b =>
      cases hs : C.SecKeyFromHex d.Secret with
      | error e =>
        exact ⟨fun _ => Or.inr (Or.inr (Or.inl ⟨e, rfl⟩)), fun _ => ⟨_, f3 a b e ha hb hs⟩⟩
      | ok sk =>
      cases hp : C.PubKeyFromHex d.Public with
      | error e =>
        exact ⟨fun _ => Or.inr (Or.inr (Or.inr (Or.inl ⟨e, rfl⟩))),
          fun _ => ⟨_, f4 a b sk e ha hb hs hp⟩⟩
      | ok pk =>
        rw [KeysTestDataFromJSON_sigs_error_iff C d a b sk pk ha hb hs hp]
        constructor
        · intro h
          exact Or.inr (Or.inr (Or.inr (Or.inr h)))
        · rintro (⟨e, he⟩ | ⟨e, he⟩ | ⟨e, he⟩ | ⟨e, he⟩ | h)
          · cases he
          · cases he
          · cases he
          · cases he
          · exact h
    · intro a b sk pk pre x post e ha hb hs hp hsplit hpre hx
      exact KeysTestDataFromJSON_sig_first C d a b sk pk ha hb hs hp pre post x e hsplit hpre hx
  · have g1 : DecodeString d.Seed = none → SeedTestDataFromJSON C d = .error .corruptInput := by
      intro h
      simp only [SeedTestDataFromJSON, h]
    refine ⟨?_, g1, ?_⟩
    · cases hseed : DecodeString d.Seed with
      | none => exact ⟨fun _ => Or.inl rfl, fun _ => ⟨_, g1 hseed⟩⟩
      | some seed =>
        rw [SeedTestDataFromJSON_of_seed C d seed hseed]
        have hiff := decodeEach_error_iff (KeysTestDataFromJSON C) d.Keys.toList
        constructor
        · rintro ⟨e, he⟩
          cases hd : decodeEach (KeysTestDataFromJSON C) d.Keys.toList with
          | error e2 => exact Or.inr (hiff.1 ⟨e2, hd⟩)
          | ok keys => rw [hd] at he; cases he
        · rintro (h | h)
          · cases h
          · obtain ⟨e2, he2⟩ := hiff.2 h
            rw [he2]
            exact ⟨e2, rfl⟩
    · intro seed pre kj post e hseed hsplit hpre hx
      rw [SeedTestDataFromJSON_of_seed C d seed hseed, hsplit,
        decodeEach_first_error (KeysTestDataFromJSON C) pre post kj e hpre hx]
  · unfold InputTestDataFromJSON
    rw [decodeHashes_eq]
    have hiff := decodeEach_error_iff (fun h => liftCipher (C.SHA256FromHex h)) d.Hashes.toList
    constructor
    · rintro ⟨e, he⟩
      cases hd : decodeEach (fun h => liftCipher (C.SHA256FromHex h)) d.Hashes.toList with
      | error e2 =>
        obtain ⟨x, hx, e3, he3⟩ := hiff.1 ⟨e2, hd⟩
        exact ⟨x, hx, (liftCipher_error_iff _).1 ⟨e3, he3⟩⟩
      | ok hashes => rw [hd] at he; cases he
    · rintro ⟨x, hx, e, he⟩
      obtain ⟨e2, he2⟩ := hiff.2 ⟨x, hx, (liftCipher_error_iff _).2 ⟨e, he⟩⟩
      rw [he2]
      exact ⟨e2, rfl⟩

/-! ## Field selection of `cxchain-cli key` -/

/-- C12, key field selection: once the flags are parsed and the file is opened
and decoded into a `KeySpec`, `cmdKey` prints exactly one line, the value of
the requested field, when the name is "spec_era", "key_type", "pubkey",
"seckey" or "address" (`SpecEra`, `KeyType`, `PubKey`, `SecKey`, `Address`);
for every other name it prints nothing and ends in `log.Fatal` with "Invalid
field input.". -/
theorem cmdKey_field_selection (W : KeyWorld) (args : List String) (flags : keyFlags)
    (f : W.File) (kSpec : KeySpec)
    (hflags : processKeyFlags W args = .ok flags)
    (hopen : W.Open flags.in_ = .ok f)
    (hdec : W.Decode f = .ok kSpec) :
    (flags.field = "spec_era" → (cmdKey W args).stdout = [kSpec.SpecEra]) ∧
    (flags.field = "key_type" → (cmdKey W args).stdout = [kSpec.KeyType]) ∧
    (flags.field = "pubkey" → (cmdKey W args).stdout = [kSpec.PubKey]) ∧
    (flags.field = "seckey" → (cmdKey W args).stdout = [kSpec.SecKey]) ∧
    (flags.field = "address" → (cmdKey W args).stdout = [kSpec.Address]) ∧
    (flags.field ≠ "spec_era" → flags.field ≠ "key_type" → flags.field ≠ "pubkey" →
      flags.field ≠ "seckey" → flags.field ≠ "address" →
      cmdKey W args = { stdout := [], exit := some (.fatal "Invalid field input.") }) := by
  have hrun : ∀ out, selectField kSpec flags.field = some out →
      (cmdKey W args).stdout = [out] := by
    intro out hsel
    unfold cmdKey
    rw [hflags]
    simp only []
    rw [hopen]
    simp only []
    rw [hdec]
    simp only []
    rw [hsel]
    simp only []
    cases W.Close f <;> rfl
  refine ⟨fun h => hrun _ ?_, fun h => hrun _ ?_, fun h => hrun _ ?_, fun h => hrun _ ?_,
    fun h => hrun _ ?_, ?_⟩
  · unfold selectField
    rw [if_pos h]
  · unfold selectField
    rw [h, if_neg (by decide), if_pos rfl]
  · unfold selectField
    rw [h, if_neg (by decide), if_neg (by decide), if_pos rfl]
  · unfold selectField
    rw [h, if_neg (by decide), if_neg (by decide), if_neg (by decide), if_pos rfl]
  · unfold selectField
    rw [h, if_neg (by decide), if_neg (by decide), if_neg (by decide), if_neg (by decide),
      if_pos rfl]
  · intro h1 h2 h3 h4 h5
    have hsel : selectField kSpec flags.field = none := by
      unfold selectField
      rw [if_neg h1, if_neg h2, if_neg h3, if_neg h4, if_neg h5]
    unfold cmdKey
    rw [hflags]
    simp only []
    rw [hopen]
    simp only []
    rw [hdec]
    simp only []
    rw [hsel]

/-- Instance at `exampleKeyWorld`: the field `pubkey` is printed, the name
`balance` ends in the invalid-field failure. -/
theorem cmdKey_field_selection_witness :
    (cmdKey exampleKeyWorld ["pubkey"]).stdout = ["03ab"] ∧
    cmdKey exampleKeyWorld ["balance"] =
      { stdout := [], exit := some (.fatal "Invalid field input.") } :=
  ⟨(cmdKey_field_selection exampleKeyWorld ["pubkey"]
      { in_ := "skycoin.chain_keys.json", field := "pubkey" }
      { SpecEra := "cx1", KeyType := "chain", PubKey := "03ab", SecKey := "5f",
        Address := "2Xyz" }
      { SpecEra := "cx1", KeyType := "chain", PubKey := "03ab", SecKey := "5f",
        Address := "2Xyz" } rfl rfl rfl).2.2.1 rfl,
    (cmdKey_field_selection exampleKeyWorld ["balance"]
      { in_ := "skycoin.chain_keys.json", field := "balance" }
      { SpecEra := "cx1", KeyType := "chain", PubKey := "03ab", SecKey := "5f",
        Address := "2Xyz" }
      { SpecEra := "cx1", KeyType := "chain", PubKey := "03ab", SecKey := "5f",
        Address := "2Xyz" } rfl rfl rfl).2.2.2.2.2
      (by decide) (by decide) (by decide) (by decide) (by decide)⟩

/-! ## Coin hours naming -/

theorem stripLoop_eq (U : Unicode) (l out : List Char) :
    stripLoop U out l = out ++ l.filter (fun c => !U.IsSpace c) := by
  induction l generalizing out with
  | nil => simp [stripLoop]
  | cons c rest ih =>
    unfold stripLoop
    by_cases hc : U.IsSpace c = true
    · rw [if_pos hc, ih]
      simp [hc]
    · rw [if_neg hc, ih]
      simp [hc]

theorem stripWhitespaces_toList (U : Unicode) (s : String) :
    (stripWhitespaces U s).toList = s.toList.filter (fun c => !U.IsSpace c) := by
  simp only [stripWhitespaces, stripLoop_eq, String.toList, List.nil_append]

theorem stripWhitespaces_congr (U : Unicode) (a b : String)
    (h : a.toList.filter (fun c => !U.IsSpace c) = b.toList.filter (fun c => !U.IsSpace c)) :
    stripWhitespaces U a = stripWhitespaces U b := by
  simp only [stripWhitespaces, stripLoop_eq, List.nil_append, h]

theorem map_filter_space (U : Unicode) (f : Char → Char)
    (hf : ∀ c, U.IsSpace (f c) = U.IsSpace c) (l : List Char) :
    (l.filter (fun c => !U.IsSpace c)).map f = (l.map f).filter (fun c => !U.IsSpace c) := by
  induction l with
  | nil => rfl
  | cons c rest ih =>
    by_cases hc : U.IsSpace c = true
    · have hfc : U.IsSpace (f c) = true := by rw [hf]; exact hc
      simp [List.filter, hc, hfc, ih]
    · have hc2 : U.IsSpace c = false := by simpa using hc
      have hfc : U.IsSpace (f c) = false := by rw [hf]; exact hc2
      simp [List.filter, hc2, hfc, ih]

/-- C17, coin-hours naming: `CoinHoursName n` is the lower-cased text of `n`
without its whitespace runes, the other runes kept in order, followed by
" coin hours", and `CoinHoursTicker t` is the upper-cased text of `t` without
its whitespace runes followed by "_CH". The code strips first and maps the
case afterwards; where the case mapping keeps whitespace runes and only them
whitespace, this equals stripping the case-mapped text. `stripWhitespaces`
returns the non-whitespace runes in order, so its result holds no whitespace
rune and stripping is idempotent, and two inputs that differ only in
whitespace get the same name and the same ticker. -/
theorem CoinHours_naming (U : Unicode) :
    (∀ n, CoinHoursName U n =
      String.mk ((n.toList.filter (fun c => !U.IsSpace c)).map U.ToLower) ++ " coin hours") ∧
    (∀ t, CoinHoursTicker U t =
      String.mk ((t.toList.filter (fun c => !U.IsSpace c)).map U.ToUpper) ++ "_CH") ∧
    ((∀ c, U.IsSpace (U.ToLower c) = U.IsSpace c) →
      ∀ n, CoinHoursName U n = stripWhitespaces U (strings.ToLower U n) ++ " coin hours") ∧
    ((∀ c, U.IsSpace (U.ToUpper c) = U.IsSpace c) →
      ∀ t, CoinHoursTicker U t = stripWhitespaces U (strings.ToUpper U t) ++ "_CH") ∧
    (∀ s, (stripWhitespaces U s).toList = s.toList.filter (fun c => !U.IsSpace c)) ∧
    (∀ s, ∀ c ∈ (stripWhitespaces U s).toList, U.IsSpace c = false) ∧
    (∀ s, stripWhitespaces U (stripWhitespaces U s) = stripWhitespaces U s) ∧
    (∀ a b, a.toList.filter (fun c => !U.IsSpace c) = b.toList.filter (fun c => !U.IsSpace c) →
      CoinHoursName U a = CoinHoursName U b ∧ CoinHoursTicker U a = CoinHoursTicker U b) := by
  refine ⟨?_, ?_, ?_, ?_, ?_, ?_, ?_, ?_⟩
  · intro n
    simp only [CoinHoursName, strings.ToLower, stripWhitespaces_toList]
  · intro t
    simp only [CoinHoursTicker, strings.ToUpper, stripWhitespaces_toList]
  · intro hf n
    simp only [CoinHoursName, strings.ToLower, stripWhitespaces_toList]
    simp only [stripWhitespaces, stripLoop_eq, List.nil_append, String.toList]
    rw [map_filter_space U U.ToLower hf]
  · intro hf t
    simp only [CoinHoursTicker, strings.ToUpper, stripWhitespaces_toList]
    simp only [stripWhitespaces, stripLoop_eq, List.nil_append, String.toList]
    rw [map_filter_space U U.ToUpper hf]
  · exact stripWhitespaces_toList U
  · intro s c hc
    rw [stripWhitespaces_toList] at hc
    simpa using (List.mem_filter.1 hc).2
  · intro s
    apply stripWhitespaces_congr
    rw [stripWhitespaces_toList, List.filter_filter]
    simp
  · intro a b h
    simp only [CoinHoursName, CoinHoursTicker, stripWhitespaces_congr U a b h, and_self]

theorem exampleUnicode_lower_space (c : Char) :
    exampleUnicode.IsSpace (exampleUnicode.ToLower c) = exampleUnicode.IsSpace c := by
  show exampleUnicode.IsSpace (if c = 'A' then 'a' else if c = 'B' then 'b' else c) =
    exampleUnicode.IsSpace c
  by_cases h1 : c = 'A'
  · rw [if_pos h1, h1]; decide
  · rw [if_neg h1]
    by_cases h2 : c = 'B'
    · rw [if_pos h2, h2]; decide
    · rw [if_neg h2]

/-- Instance at `exampleUnicode`, whose case mappings keep whitespace: the
name and ticker of a text with blanks, evaluated, and the agreement with
stripping the case-mapped text. -/
theorem CoinHours_naming_witness :
    CoinHoursName exampleUnicode " A b\t" = "ab coin hours" ∧
    CoinHoursTicker exampleUnicode " A b\t" = "AB_CH" ∧
    CoinHoursName exampleUnicode " A b\t" =
      stripWhitespaces exampleUnicode (strings.ToLower exampleUnicode " A b\t") ++
        " coin hours" :=
  ⟨by decide, by decide,
    (CoinHours_naming exampleUnicode).2.2.1 exampleUnicode_lower_space " A b\t"⟩

/-! ## Fail-fast order -/

theorem validateKey_order (C : Cipher) (sign : Signer C) (d : SeedTestData C)
    (inp : Option (InputTestData C)) (i : Nat) (s : C.SecKey) (n : Nat) (msg : String)
    (k : KeysTestData C) (hk : d.Keys.toList.get? i = some k)
    (hv : validateKey C sign d inp i s n = .error (.error msg)) :
    firstViolated (keyCheckOrder C inp k s) = some msg ∨
    (firstViolated (keyCheckOrder C inp k s) = none ∧
      ∃ input p, inp = some input ∧ C.MustPubKeyFromSecKey s = some p ∧
        validateSignatures C sign s p (C.AddressFromPubKey p) k.Signatures 0
          input.Hashes.toList n = .error (.error msg)) := by
  unfold validateKey at hv
  by_cases c1 : s = C.nullSecKey
  · rw [if_pos c1] at hv; cases hv
    left; simp [keyCheckOrder, firstViolated, check, c1]
  rw [if_neg c1] at hv
  rw [hk] at hv
  simp only [] at hv
  by_cases c2 : k.Secret ≠ s
  · rw [if_pos c2] at hv; cases hv
    left; simp [keyCheckOrder, firstViolated, check, c1, c2]
  rw [if_neg c2] at hv
  cases hp : C.MustPubKeyFromSecKey s with
  | none => rw [hp] at hv; cases hv
  | some p =>
  rw [hp] at hv
  simp only [] at hv
  by_cases c3 : p = C.nullPubKey
  · rw [if_pos c3] at hv; cases hv
    left; simp [keyCheckOrder, firstViolated, check, c1, c2, hp, c3]
  rw [if_neg c3] at hv
  by_cases c4 : k.Public ≠ p
  · rw [if_pos c4] at hv; cases hv
    left; simp [keyCheckOrder, firstViolated, check, c1, c2, hp, c3, c4]
  rw [if_neg c4] at hv
  by_cases c5 : C.AddressFromPubKey p = C.nullAddress
  · rw [if_pos c5] at hv; cases hv
    left; simp [keyCheckOrder, firstViolated, check, c1, c2, hp, c3, c4, c5]
  rw [if_neg c5] at hv
  by_cases c6 : k.Address ≠ C.AddressFromPubKey p
  · rw [if_pos c6] at hv; cases hv
    left; simp [keyCheckOrder, firstViolated, check, c1, c2, hp, c3, c4, c5, c6]
  rw [if_neg c6] at hv
  cases ha2 : C.MustAddressFromSecKey s with
  | none => rw [ha2] at hv; cases hv
  | some addr2 =>
  rw [ha2] at hv
  simp only [] at hv
  by_cases c7 : C.AddressFromPubKey p ≠ addr2
  · rw [if_pos c7] at hv; cases hv
    left; simp [keyCheckOrder, firstViolated, check, c1, c2, hp, c3, c4, c5, c6, ha2, c7]
  rw [if_neg c7] at hv
  by_cases c8 : C.BitcoinAddressFromPubKey p = C.nullBitcoinAddress
  · rw [if_pos c8] at hv; cases hv
    left; simp [keyCheckOrder, firstViolated, check, c1, c2, hp, c3, c4, c5, c6, ha2, c7, c8]
  rw [if_neg c8] at hv
  by_cases c9 : k.BitcoinAddress ≠ C.BitcoinAddressFromPubKey p
  · rw [if_pos c9] at hv; cases hv
    left; simp [keyCheckOrder, firstViolated, check, c1, c2, hp, c3, c4, c5, c6, ha2, c7, c8, c9]
  rw [if_neg c9] at hv
  cases hb2 : C.MustBitcoinAddressFromSecKey s with
  | none => rw [hb2] at hv; cases hv
  | some b2 =>
  rw [hb2] at hv
  simp only [] at hv
  by_cases c10 : C.BitcoinAddressFromPubKey p ≠ b2
  · rw [if_pos c10] at hv; cases hv
    left; simp [keyCheckOrder, firstViolated, check, c1, c2, hp, c3, c4, c5, c6, ha2, c7, c8, c9, hb2, c10]
  rw [if_neg c10] at hv
  by_cases c11 : C.VerifySeckey s ≠ 1
  · rw [if_pos c11] at hv; cases hv
    left; simp [keyCheckOrder, firstViolated, check, c1, c2, hp, c3, c4, c5, c6, ha2, c7, c8, c9, hb2, c10, c11]
  rw [if_neg c11] at hv
  by_cases c12 : C.VerifyPubkey p ≠ 1
  · rw [if_pos c12] at hv; cases hv
    left; simp [keyCheckOrder, firstViolated, check, c1, c2, hp, c3, c4, c5, c6, ha2, c7, c8, c9, hb2, c10, c11, c12]
  rw [if_neg c12] at hv
  cases inp with
  | none =>
    rw [validateKeySignatures_none] at hv
    by_cases hz : k.Signatures.len ≠ 0
    · rw [if_pos hz] at hv; cases hv
      left; simp [keyCheckOrder, firstViolated, check, c1, c2, hp, c3, c4, c5, c6, ha2, c7, c8, c9, hb2, c10, c11, c12, hz]
    · rw [if_neg hz] at hv; cases hv
  | some input =>
    rw [validateKeySignatures_some] at hv
    by_cases hc : k.Signatures.len ≠ input.Hashes.len
    · rw [if_pos hc] at hv; cases hv
      left; simp [keyCheckOrder, firstViolated, check, c1, c2, hp, c3, c4, c5, c6, ha2, c7, c8, c9, hb2, c10, c11, c12, hc]
    · rw [if_neg hc] at hv
      right
      refine ⟨?_, input, p, rfl, rfl, hv⟩
      simp [keyCheckOrder, firstViolated, check, c1, c2, hp, c3, c4, c5, c6, ha2, c7, c8, c9, hb2, c10, c11, c12, not_not.mp hc]

theorem validateKeys_error_imp (C : Cipher) (sign : Signer C) (d : SeedTestData C)
    (inp : Option (InputTestData C)) (keys : List C.SecKey) (i n : Nat) (e : Fault)
    (hv : validateKeys C sign d inp i keys n = .error e) :
    ∃ t s m, keys.get? t = some s ∧
      validateKeys C sign d inp i (keys.take t) n = .ok m ∧
      validateKey C sign d inp (i + t) s m = .error e := by
  induction keys generalizing i n with
  | nil => unfold validateKeys at hv; cases hv
  | cons s0 rest ih =>
    unfold validateKeys at hv
    cases hk : validateKey C sign d inp i s0 n with
    | error e0 =>
      rw [hk] at hv
      injection hv with hv
      subst hv
      exact ⟨0, s0, n, rfl, rfl, hk⟩
    | ok m0 =>
      rw [hk] at hv
      obtain ⟨t, s, m, ht, hpre, herr⟩ := ih (i + 1) m0 hv
      refine ⟨t + 1, s, m, by simpa using ht, ?_, ?_⟩
      · simp only [List.take_succ_cons, validateKeys, hk]
        exact hpre
      · have e1 : i + (t + 1) = i + 1 + t := by omega
        rw [e1]; exact herr

theorem validateSignatures_error_imp (C : Cipher) (sign : Signer C) (s : C.SecKey)
    (p : C.PubKey) (addr1 : C.Address) (sigs : Slice C.Sig) (hs : List C.SHA256) (j n : Nat)
    (msg : String)
    (hv : validateSignatures C sign s p addr1 sigs j hs n = .error (.error msg)) :
    ∃ t h sig a, hs.get? t = some h ∧ sigs.toList.get? (j + t) = some sig ∧
      validateSignatures C sign s p addr1 sigs j (hs.take t) n = .ok a ∧
      validateSignature C sign s p addr1 sig h a = .error (.error msg) := by
  induction hs generalizing j n with
  | nil => unfold validateSignatures at hv; cases hv
  | cons h0 rest ih =>
    unfold validateSignatures at hv
    cases hg : sigs.toList.get? j with
    | none => rw [hg] at hv; cases hv
    | some sig0 =>
      rw [hg] at hv
      simp only [] at hv
      cases hk : validateSignature C sign s p addr1 sig0 h0 n with
      | error e0 =>
        rw [hk] at hv
        injection hv with hv
        subst hv
        exact ⟨0, h0, sig0, n, rfl, hg, rfl, hk⟩
      | ok m0 =>
        rw [hk] at hv
        obtain ⟨t, h, sig, a, ht, hsig, hpre, herr⟩ := ih (j + 1) m0 hv
        refine ⟨t + 1, h, sig, a, by simpa using ht, ?_, ?_, herr⟩
        · have e1 : j + (t + 1) = j + 1 + t := by omega
          rw [e1]; exact hsig
        · simp only [List.take_succ_cons, validateSignatures, hg, hk]
          exact hpre

theorem ValidateSeedData_error_congr (C : Cipher) (sign : Signer C) (d d' : SeedTestData C)
    (inp : Option (InputTestData C)) (keys : List C.SecKey) (i : Nat) (s : C.SecKey)
    (m : Nat) (e : Fault)
    (hg : C.MustGenerateDeterministicKeyPairs d.Seed d.Keys.len = some keys)
    (hl : keys.length = d.Keys.len)
    (hs : keys.get? i = some s)
    (hprev : validateKeys C sign d inp 0 (keys.take i) 0 = .ok m)
    (he : validateKey C sign d inp i s m = .error e)
    (hseed : d'.Seed = d.Seed) (hlen : d'.Keys.len = d.Keys.len)
    (hsame : ∀ t, t ≤ i → d'.Keys.toList.get? t = d.Keys.toList.get? t) :
    ValidateSeedData C sign d' inp = .error e := by
  apply ValidateSeedData_error_at C sign d' inp keys i s m e
  · rw [hseed, hlen]; exact hg
  · rw [hlen]; exact hl
  · exact hs
  · rw [← hprev]
    apply validateKeys_congr
    intro t ht
    rw [Nat.zero_add]
    apply hsame
    have := List.length_take_le i keys
    omega
  · rw [← he]
    exact validateKey_congr C sign d' d inp i s m (hsame i (Nat.le_refl i))

/-! ## The error of a key is that of its first violated check -/

theorem firstViolated_append (a b : List (Option String)) :
    firstViolated (a ++ b) =
      match firstViolated a with
      | some msg => some msg
      | none => firstViolated b := by
  induction a with
  | nil => rfl
  | cons x rest ih =>
    cases x with
    | none => exact ih
    | some m => rfl

theorem validateSignature_order (C : Cipher) (sign : Signer C) (s : C.SecKey) (p : C.PubKey)
    (addr1 : C.Address) (sig : C.Sig) (h : C.SHA256) (n : Nat) (msg : String)
    (hv : validateSignature C sign s p addr1 sig h n = .error (.error msg)) :
    firstViolated (signatureCheckOrder C sign s p addr1 sig h n) = some msg := by
  unfold validateSignature at hv
  split at hv
  · rename_i c1
    cases hv
    simp [signatureCheckOrder, firstViolated, check, c1]
  rename_i c1
  split at hv
  · rename_i e h1
    cases hv
    simp [signatureCheckOrder, firstViolated, check, c1, h1]
  rename_i h1
  split at hv
  · rename_i e h2
    cases hv
    simp [signatureCheckOrder, firstViolated, check, c1, h1, h2]
  rename_i h2
  split at hv
  · rename_i e h3
    cases hv
    simp [signatureCheckOrder, firstViolated, check, c1, h1, h2, h3]
  rename_i h3
  split at hv
  · rename_i e h4
    cases hv
    simp [signatureCheckOrder, firstViolated, check, c1, h1, h2, h3, h4]
  rename_i p2 h4
  split at hv
  · rename_i c5
    cases hv
    simp [signatureCheckOrder, firstViolated, check, c1, h1, h2, h3, h4, c5]
  rename_i c5
  split at hv
  · cases hv
  rename_i sig2 h6
  split at hv
  · rename_i c7
    cases hv
    have c5' : p = p2 := by simpa using c5
    subst c5'
    simp [signatureCheckOrder, firstViolated, check, c1, h1, h2, h3, h4, h6, c7]
  cases hv

theorem validateSignature_ok_order (C : Cipher) (sign : Signer C) (s : C.SecKey) (p : C.PubKey)
    (addr1 : C.Address) (sig : C.Sig) (h : C.SHA256) (n m : Nat)
    (hv : validateSignature C sign s p addr1 sig h n = .ok m) :
    firstViolated (signatureCheckOrder C sign s p addr1 sig h n) = none ∧ m = n + 1 := by
  obtain ⟨c1, h1, h2, h3, h4, ⟨sig2, h6, c7⟩, hm⟩ :=
    (validateSignature_ok_iff C sign s p addr1 sig h n m).1 hv
  refine ⟨?_, hm⟩
  simp [signatureCheckOrder, firstViolated, check, c1, h1, h2, h3, h4, h6, c7]

theorem validateSignatures_order (C : Cipher) (sign : Signer C) (s : C.SecKey) (p : C.PubKey)
    (addr1 : C.Address) (sigs : Slice C.Sig) (hs : List C.SHA256) (j n : Nat) (msg : String)
    (hv : validateSignatures C sign s p addr1 sigs j hs n = .error (.error msg)) :
    firstViolated (digestCheckOrder C sign s p addr1 sigs j hs n) = some msg := by
  induction hs generalizing j n with
  | nil => unfold validateSignatures at hv; cases hv
  | cons h rest ih =>
    unfold validateSignatures at hv
    unfold digestCheckOrder
    cases hg : sigs.toList.get? j with
    | none => rw [hg] at hv; cases hv
    | some sig =>
      rw [hg] at hv
      simp only [] at hv ⊢
      rw [firstViolated_append]
      cases hk : validateSignature C sign s p addr1 sig h n with
      | error e =>
        rw [hk] at hv
        injection hv with hv
        subst hv
        rw [validateSignature_order C sign s p addr1 sig h n msg hk]
      | ok m =>
        rw [hk] at hv
        obtain ⟨h1, h2⟩ := validateSignature_ok_order C sign s p addr1 sig h n m hk
        subst h2
        rw [h1]
        exact ih (j + 1) (n + 1) hv

theorem validateSignatures_ok_order (C : Cipher) (sign : Signer C) (s : C.SecKey)
    (p : C.PubKey) (addr1 : C.Address) (sigs : Slice C.Sig) (hs : List C.SHA256)
    (j n m : Nat)
    (hv : validateSignatures C sign s p addr1 sigs j hs n = .ok m) :
    firstViolated (digestCheckOrder C sign s p addr1 sigs j hs n) = none := by
  induction hs generalizing j n with
  | nil => rfl
  | cons h rest ih =>
    unfold validateSignatures at hv
    unfold digestCheckOrder
    cases hg : sigs.toList.get? j with
    | none => rw [hg] at hv; cases hv
    | some sig =>
      rw [hg] at hv
      simp only [] at hv ⊢
      rw [firstViolated_append]
      cases hk : validateSignature C sign s p addr1 sig h n with
      | error e => rw [hk] at hv; cases hv
      | ok m0 =>
        rw [hk] at hv
        obtain ⟨h1, h2⟩ := validateSignature_ok_order C sign s p addr1 sig h n m0 hk
        subst h2
        rw [h1]
        exact ih (j + 1) (n + 1) hv

theorem validateKey_checkOrder (C : Cipher) (sign : Signer C) (d : SeedTestData C)
    (inp : Option (InputTestData C)) (i : Nat) (s : C.SecKey) (n : Nat) (msg : String)
    (k : KeysTestData C) (hk : d.Keys.toList.get? i = some k)
    (hv : validateKey C sign d inp i s n = .error (.error msg)) :
    firstViolated (checkOrder C sign inp k s n) = some msg := by
  unfold checkOrder
  rw [firstViolated_append]
  rcases validateKey_order C sign d inp i s n msg k hk hv with h1 | ⟨h1, input, p, hinp, hp, hsig⟩
  · rw [h1]
  · rw [h1, hinp, hp]
    exact validateSignatures_order C sign s p _ k.Signatures _ 0 n msg hsig

theorem validateKey_ok_checkOrder (C : Cipher) (sign : Signer C) (d : SeedTestData C)
    (inp : Option (InputTestData C)) (i : Nat) (s : C.SecKey) (n m : Nat)
    (k : KeysTestData C) (hk : d.Keys.toList.get? i = some k)
    (hv : validateKey C sign d inp i s n = .ok m) :
    firstViolated (checkOrder C sign inp k s n) = none := by
  obtain ⟨k0, p, hk0, hpass, hsig⟩ := validateKey_ok_imp C sign d inp i s n m hv
  rw [hk] at hk0
  injection hk0 with hk0
  subst hk0
  obtain ⟨h1, h2, h3, h4, h5, h6, h7, h8, h9, h10, h11, h12, h13⟩ := hpass
  unfold checkOrder
  rw [firstViolated_append]
  cases inp with
  | none =>
    rw [validateKeySignatures_none] at hsig
    by_cases hz : k.Signatures.len ≠ 0
    · rw [if_pos hz] at hsig; cases hsig
    · have hz2 : k.Signatures.len = 0 := not_not.mp hz
      simp [keyCheckOrder, firstViolated, check, h1, h2, h3, h4, h5, h6, h7, h8, h9, h10,
        h11, h12, h13, hz2]
  | some input =>
    rw [validateKeySignatures_some] at hsig
    by_cases hc : k.Signatures.len ≠ input.Hashes.len
    · rw [if_pos hc] at hsig; cases hsig
    · rw [if_neg hc] at hsig
      have hc2 : k.Signatures.len = input.Hashes.len := not_not.mp hc
      have hkey : firstViolated (keyCheckOrder C (some input) k s) = none := by
        simp [keyCheckOrder, firstViolated, check, h1, h2, h3, h4, h5, h6, h7, h8, h9, h10,
          h11, h12, h13, hc2]
      rw [hkey, h3]
      exact validateSignatures_ok_order C sign s p _ k.Signatures _ 0 n m hsig

theorem validateKey_shift (C : Cipher) (sign : Signer C) (d d' : SeedTestData C)
    (inp : Option (InputTestData C)) (i i' : Nat) (s : C.SecKey) (n : Nat)
    (h : d.Keys.toList.get? i = d'.Keys.toList.get? i') :
    validateKey C sign d inp i s n = validateKey C sign d' inp i' s n := by
  unfold validateKey
  rw [h]

theorem validateSignatures_shift (C : Cipher) (sign : Signer C) (s : C.SecKey) (p : C.PubKey)
    (addr1 : C.Address) (sigs sigs' : Slice C.Sig) (hs : List C.SHA256) (j j' n : Nat)
    (h : ∀ t, t < hs.length → sigs.toList.get? (j + t) = sigs'.toList.get? (j' + t)) :
    validateSignatures C sign s p addr1 sigs j hs n =
      validateSignatures C sign s p addr1 sigs' j' hs n := by
  induction hs generalizing j j' n with
  | nil => rfl
  | cons h0 rest ih =>
    unfold validateSignatures
    have h00 := h 0 (by simp)
    simp only [Nat.add_zero] at h00
    rw [h00]
    cases sigs'.toList.get? j' with
    | none => rfl
    | some sig =>
      simp only []
      cases validateSignature C sign s p addr1 sig h0 n with
      | error e => rfl
      | ok m =>
        simp only []
        apply ih
        intro t ht
        have := h (t + 1) (by simp; omega)
        have e1 : j + (t + 1) = j + 1 + t := by omega
        have e2 : j' + (t + 1) = j' + 1 + t := by omega
        rw [← e1, ← e2]; exact this

theorem validateKeys_take_ok_order (C : Cipher) (sign : Signer C) (d : SeedTestData C)
    (inp : Option (InputTestData C)) (keys : List C.SecKey) (i m : Nat)
    (hpre : validateKeys C sign d inp 0 (keys.take i) 0 = .ok m) :
    ∀ t s k, t < i → keys.get? t = some s → d.Keys.toList.get? t = some k →
      ∃ a, firstViolated (checkOrder C sign inp k s a) = none := by
  intro t s k ht hs hk
  have hs2 : (keys.take i).get? t = some s := by
    rw [List.get?_eq_getElem?] at hs ⊢
    rw [List.getElem?_take_of_lt ht]
    exact hs
  obtain ⟨a, b, hab⟩ := validateKeys_ok_imp C sign d inp (keys.take i) 0 0 m hpre t s hs2
  rw [Nat.zero_add] at hab
  exact ⟨a, validateKey_ok_checkOrder C sign d inp t s a b k hk hab⟩

/-- C13, fail-fast on the lowest index: when the generator keeps its contract
of returning as many secrets as requested and `ValidateSeedData` returns an
error, there is a lowest failing key `i`: every key below `i` violates none of
its checks and is accepted by the loop, and the returned error is that of the
first violated check of key `i` in the order null secret, secret mismatch,
null public key, public-key mismatch, null address, address mismatch, address
path divergence, the same for the bitcoin address, `VerifySeckey`,
`VerifyPubkey`, unexpected signatures, signature count, then the checks of
each digest in order. A fixture with the same seed, the same number of keys
and the same keys up to index `i` gets the same error. -/
theorem ValidateSeedData_fail_fast (C : Cipher) (sign : Signer C) (d : SeedTestData C)
    (inp : Option (InputTestData C)) (msg : String)
    (hcontract : ∀ keys, C.MustGenerateDeterministicKeyPairs d.Seed d.Keys.len = some keys →
      keys.length = d.Keys.len)
    (hv : ValidateSeedData C sign d inp = .error (.error msg)) :
    ∃ keys i s k m,
      C.MustGenerateDeterministicKeyPairs d.Seed d.Keys.len = some keys ∧
      keys.get? i = some s ∧ d.Keys.toList.get? i = some k ∧
      (∀ t s' k', t < i → keys.get? t = some s' → d.Keys.toList.get? t = some k' →
        ∃ a, firstViolated (checkOrder C sign inp k' s' a) = none) ∧
      validateKeys C sign d inp 0 (keys.take i) 0 = .ok m ∧
      validateKey C sign d inp i s m = .error (.error msg) ∧
      firstViolated (checkOrder C sign inp k s m) = some msg ∧
      ∀ d' : SeedTestData C, d'.Seed = d.Seed → d'.Keys.len = d.Keys.len →
        (∀ t, t ≤ i → d'.Keys.toList.get? t = d.Keys.toList.get? t) →
        ValidateSeedData C sign d' inp = .error (.error msg) := by
  unfold ValidateSeedData at hv
  cases hg : C.MustGenerateDeterministicKeyPairs d.Seed d.Keys.len with
  | none => rw [hg] at hv; cases hv
  | some keys =>
    rw [hg] at hv
    simp only [] at hv
    have hl2 : keys.length = d.Keys.len := hcontract keys hg
    rw [if_neg (by simp [hl2])] at hv
    cases hk : validateKeys C sign d inp 0 keys 0 with
    | ok m => rw [hk] at hv; cases hv
    | error e =>
      rw [hk] at hv
      injection hv with hv
      subst hv
      obtain ⟨i, s, m, hs, hpre, herr⟩ := validateKeys_error_imp C sign d inp keys 0 0 _ hk
      rw [Nat.zero_add] at herr
      have hi : i < d.Keys.toList.length := by
        have := (List.get?_eq_some.1 hs).1
        simp only [Slice.len] at hl2
        omega
      have hget : d.Keys.toList.get? i = some (d.Keys.toList.get ⟨i, hi⟩) :=
        List.get?_eq_get hi
      exact ⟨keys, i, s, _, m, rfl, hs, hget,
        validateKeys_take_ok_order C sign d inp keys i m hpre, hpre, herr,
        validateKey_checkOrder C sign d inp i s m msg _ hget herr,
        fun d' hseed hlen hsame =>
          ValidateSeedData_error_congr C sign d d' inp keys i s m _ hg hl2 hs hpre herr
            hseed hlen hsame⟩

/-- Instance at `exampleBadPublic1`, which fails the public-key comparison at
key 1 after key 0 was accepted. -/
theorem ValidateSeedData_fail_fast_witness :
    ValidateSeedData (exampleCipher [5, 6]) (exampleSigner [5, 6]) exampleBadPublic1 none =
      .error (.error "derived public key does not match provided public key") ∧
    ∃ keys i s k m,
      (exampleCipher [5, 6]).MustGenerateDeterministicKeyPairs exampleBadPublic1.Seed
        exampleBadPublic1.Keys.len = some keys ∧
      keys.get? i = some s ∧ exampleBadPublic1.Keys.toList.get? i = some k ∧
      (∀ t s' k', t < i → keys.get? t = some s' →
        exampleBadPublic1.Keys.toList.get? t = some k' →
        ∃ a, firstViolated (checkOrder (exampleCipher [5, 6]) (exampleSigner [5, 6]) none k' s' a) =
          none) ∧
      validateKeys (exampleCipher [5, 6]) (exampleSigner [5, 6]) exampleBadPublic1 none 0
        (keys.take i) 0 = .ok m ∧
      validateKey (exampleCipher [5, 6]) (exampleSigner [5, 6]) exampleBadPublic1 none i s m =
        .error (.error "derived public key does not match provided public key") ∧
      firstViolated (checkOrder (exampleCipher [5, 6]) (exampleSigner [5, 6]) none k s m) =
        some "derived public key does not match provided public key" ∧
      ∀ d' : SeedTestData (exampleCipher [5, 6]), d'.Seed = exampleBadPublic1.Seed →
        d'.Keys.len = exampleBadPublic1.Keys.len →
        (∀ t, t ≤ i → d'.Keys.toList.get? t = exampleBadPublic1.Keys.toList.get? t) →
        ValidateSeedData (exampleCipher [5, 6]) (exampleSigner [5, 6]) d' none =
          .error (.error "derived public key does not match provided public key") :=
  ⟨rfl, ValidateSeedData_fail_fast (exampleCipher [5, 6]) (exampleSigner [5, 6])
    exampleBadPublic1 none _
    (fun keys h => by
      have h2 : ([5, 6] : List Nat) = keys := Option.some.inj h
      rw [← h2]
      rfl)
    rfl⟩

/-! ## The error names the check, not the place -/

/-- C10 as amended, what the error tells: the error returned by a failing run
of `ValidateSeedData` names the violated check and no place. It is the
generator-count error, or the error text of the first violated check of the
failing key in the order of the checks; the text is one of the eighteen fixed
texts of `errors.New` or one of the four `fmt.Errorf` texts, a fixed text
followed by the error text of the cipher library. Neither the key index nor
the signature index enters the error: the checks of a key give the same
result at every key index that holds the same stored key, and the per-digest
checks give the same result at every signature index that holds the same
stored signatures. -/
theorem ValidateSeedData_error_message (C : Cipher) (sign : Signer C) (d : SeedTestData C)
    (inp : Option (InputTestData C)) (msg : String)
    (hv : ValidateSeedData C sign d inp = .error (.error msg)) :
    (msg ∈ checkMessages ∨ ∃ e, msg ∈ wrappedMessages C e) ∧
    (msg = "cipher.GenerateDeterministicKeyPairs generated an unexpected number of keys" ∨
      ∃ keys i s k m,
        C.MustGenerateDeterministicKeyPairs d.Seed d.Keys.len = some keys ∧
        keys.get? i = some s ∧ d.Keys.toList.get? i = some k ∧
        validateKey C sign d inp i s m = .error (.error msg) ∧
        firstViolated (checkOrder C sign inp k s m) = some msg) ∧
    (∀ (d' : SeedTestData C) (i i' : Nat) (s : C.SecKey) (n : Nat),
      d.Keys.toList.get? i = d'.Keys.toList.get? i' →
      validateKey C sign d inp i s n = validateKey C sign d' inp i' s n) ∧
    (∀ (s : C.SecKey) (p : C.PubKey) (addr1 : C.Address) (sigs sigs' : Slice C.Sig)
      (hs : List C.SHA256) (j j' n : Nat),
      (∀ t, t < hs.length → sigs.toList.get? (j + t) = sigs'.toList.get? (j' + t)) →
      validateSignatures C sign s p addr1 sigs j hs n =
        validateSignatures C sign s p addr1 sigs' j' hs n) := by
  refine ⟨?_, ?_, fun d' i i' s n h => validateKey_shift C sign d d' inp i i' s n h,
    fun s p addr1 sigs sigs' hs j j' n h =>
      validateSignatures_shift C sign s p addr1 sigs sigs' hs j j' n h⟩
  · unfold ValidateSeedData at hv
    cases hg : C.MustGenerateDeterministicKeyPairs d.Seed d.Keys.len with
    | none => rw [hg] at hv; cases hv
    | some keys =>
      rw [hg] at hv
      simp only [] at hv
      by_cases hl : d.Keys.len ≠ keys.length
      · rw [if_pos hl] at hv; cases hv; exact .inl (by decide)
      rw [if_neg hl] at hv
      cases hk : validateKeys C sign d inp 0 keys 0 with
      | error e =>
        rw [hk] at hv
        injection hv with hv
        subst hv
        exact validateKeys_message C sign d inp keys 0 0 msg hk
      | ok m => rw [hk] at hv; cases hv
  · unfold ValidateSeedData at hv
    cases hg : C.MustGenerateDeterministicKeyPairs d.Seed d.Keys.len with
    | none => rw [hg] at hv; cases hv
    | some keys =>
      rw [hg] at hv
      simp only [] at hv
      by_cases hl : d.Keys.len ≠ keys.length
      · rw [if_pos hl] at hv; cases hv; exact .inl rfl
      rw [if_neg hl] at hv
      have hl2 : keys.length = d.Keys.len := (not_not.mp hl).symm
      cases hk : validateKeys C sign d inp 0 keys 0 with
      | ok m => rw [hk] at hv; cases hv
      | error e =>
        rw [hk] at hv
        injection hv with hv
        subst hv
        obtain ⟨i, s, m, hs, hpre, herr⟩ := validateKeys_error_imp C sign d inp keys 0 0 _ hk
        rw [Nat.zero_add] at herr
        have hi : i < d.Keys.toList.length := by
          have := (List.get?_eq_some.1 hs).1
          simp only [Slice.len] at hl2
          omega
        have hget : d.Keys.toList.get? i = some (d.Keys.toList.get ⟨i, hi⟩) :=
          List.get?_eq_get hi
        exact .inr ⟨keys, i, s, _, m, rfl, hs, hget, herr,
          validateKey_checkOrder C sign d inp i s m msg _ hget herr⟩

/-- Instance at `exampleBadPublic1`, which fails the public-key comparison at
key 1. -/
theorem ValidateSeedData_error_message_witness :
    ValidateSeedData (exampleCipher [5, 6]) (exampleSigner [5, 6]) exampleBadPublic1 none =
      .error (.error "derived public key does not match provided public key") ∧
    ("derived public key does not match provided public key" ∈ checkMessages ∨
      ∃ e, "derived public key does not match provided public key" ∈
        wrappedMessages (exampleCipher [5, 6]) e) :=
  ⟨rfl, (ValidateSeedData_error_message (exampleCipher [5, 6]) (exampleSigner [5, 6])
    exampleBadPublic1 none _ rfl).1⟩

end CxChains
